import Mathlib

/-!
# Fine Offset weather station reader (fowsr 1.0): memory model and decode tables

A shallow embedding of `fowsr.h`: the buffer constants, the position macros, the
conversion macros and the four descriptor tables `ws_format`, `pywws_format`,
`wug_format` and `pws_format`, followed by the functions that `fowsr.h` only
declares (`CWS_dec_ptr`, `CWS_unsigned_short`, `CWS_signed_short`, `CWS_decode`),
which are modelled from the specification.

The C tables hold `float` scales and offsets.  Here they are rationals written
with the same decimal literals, so that `0.1` is exactly one tenth; the binary
values the `float` members hold are given separately (section on binary floating
point) where a statement depends on them.
-/

namespace Fowsr

/-! ## Weather station buffer parameters -/

/-- Size of total buffer. -/
def WS_BUFFER_SIZE : Nat := 0x10000
/-- Size of fixed block, start of up to 4080 buffer records. -/
def WS_BUFFER_START : Nat := 0x100
/-- Last buffer record. -/
def WS_BUFFER_END : Nat := 0xFFF0
/-- Size of one buffer record. -/
def WS_BUFFER_RECORD : Nat := 0x10
/-- Size of chunk received over USB. -/
def WS_BUFFER_CHUNK : Nat := 0x20

/-! ## Weather station buffer memory positions -/

def WS_DELAY : Nat := 0
def WS_HUMIDITY_IN : Nat := 1
def WS_TEMPERATURE_IN : Nat := 2
def WS_HUMIDITY_OUT : Nat := 4
def WS_TEMPERATURE_OUT : Nat := 5
def WS_ABS_PRESSURE : Nat := 7
def WS_WIND_AVE : Nat := 9
def WS_WIND_GUST : Nat := 10
def WS_WIND_DIR : Nat := 12
def WS_RAIN : Nat := 13
def WS_STATUS : Nat := 15
def WS_DATA_COUNT : Nat := 27
def WS_CURRENT_POS : Nat := 30

/-! ## Calculated rain parameters (these positions are not stored in the station) -/

def WS_RAIN_HOUR : Nat := 0x08
def WS_RAIN_DAY : Nat := 0x0A
def WS_RAIN_WEEK : Nat := 0x0C
def WS_RAIN_MONTH : Nat := 0x0E

/-! ## Conversion parameters for english units -/

def WS_SCALE_DEFAULT : ℚ := 1.0
def WS_SCALE_MS_TO_MPH : ℚ := 2.2369363 * 0.1
def WS_SCALE_C_TO_F : ℚ := 1.8 * 0.1
def WS_SCALE_CM_TO_IN : ℚ := 0.39370079 * 0.1 * 0.3
def WS_SCALE_HPA_TO_INHG : ℚ := 0.029530058646697 * 0.1
def WS_SCALE_OFFS_TO_DEGREE : ℚ := 22.5

def WS_OFFSET_DEFAULT : ℚ := 0.0
def WS_OFFSET_C_TO_F : ℚ := 32.0

/-! ## Descriptor tables -/

/-- The type tags understood by `CWS_decode`. -/
inductive ws_types where
  | ub | sb | us | ss | dt | tt | pb | wa | wg | dp
  deriving DecidableEq, Repr

open ws_types

/-- One entry of `ws_format`: `char name[22]; int pos; enum ws_types ws_type; float scale`. -/
structure ws_record where
  name : String
  pos : Nat
  ws_type : ws_types
  scale : ℚ
  deriving DecidableEq, Repr

/-- One entry of `pywws_format`: same layout as `ws_record`. -/
structure pywws_record where
  name : String
  pos : Nat
  ws_type : ws_types
  scale : ℚ
  deriving DecidableEq, Repr

/-- One entry of `wug_format`: `char name[13]; int pos; enum ws_types ws_type; float scale; float offset`. -/
structure wug_record where
  name : String
  pos : Nat
  ws_type : ws_types
  scale : ℚ
  offset : ℚ
  deriving DecidableEq, Repr

/-- One entry of `pws_format`: same layout as `wug_record`. -/
structure pws_record where
  name : String
  pos : Nat
  ws_type : ws_types
  scale : ℚ
  offset : ℚ
  deriving DecidableEq, Repr

/-- Up to 4080 records with this format (the first section of the table). -/
def ws_format_record : List ws_record := [
  ⟨"delay", 0, ub, 1.0⟩,
  ⟨"hum_in", 1, ub, 1.0⟩,
  ⟨"temp_in", 2, ss, 0.1⟩,
  ⟨"hum_out", 4, ub, 1.0⟩,
  ⟨"temp_out", 5, ss, 0.1⟩,
  ⟨"abs_pressure", 7, us, 0.1⟩,
  ⟨"wind_ave", 9, wa, 0.1⟩,
  ⟨"wind_gust", 10, wg, 0.1⟩,
  ⟨"wind_dir", 12, ub, 22.5⟩,
  ⟨"rain", 13, us, 0.3⟩,
  ⟨"status", 15, pb, 1.0⟩
]

/-- The lower fixed block section of the table. -/
def ws_format_fixed : List ws_record := [
  ⟨"read_period", 16, ub, 1.0⟩,
  ⟨"units0", 17, ub, 1.0⟩,
  ⟨"units_wind_speed", 18, ub, 1.0⟩,
  ⟨"display_format0", 19, ub, 1.0⟩,
  ⟨"display_format1", 20, ub, 1.0⟩,
  ⟨"alarm_enable0", 21, ub, 1.0⟩,
  ⟨"alarm_enable1", 22, ub, 1.0⟩,
  ⟨"alarm_enable2", 23, ub, 1.0⟩,
  ⟨"timezone", 24, sb, 1.0⟩,
  ⟨"data_refreshed", 26, us, 1.0⟩,
  ⟨"data_count", 27, us, 1.0⟩,
  ⟨"current_pos", 30, us, 1.0⟩,
  ⟨"rel_pressure", 32, us, 0.1⟩,
  ⟨"abs_pressure", 34, us, 0.1⟩,
  ⟨"date_time", 43, dt, 1.0⟩
]

/-- The alarm settings section of the table. -/
def ws_format_alarm : List ws_record := [
  ⟨"alarm.hum_in.hi", 48, ub, 1.0⟩, ⟨"alarm.hum_in.lo", 49, ub, 1.0⟩,
  ⟨"alarm.temp_in.hi", 50, ss, 0.1⟩, ⟨"alarm.temp_in.lo", 52, ss, 0.1⟩,
  ⟨"alarm.hum_out.hi", 54, ub, 1.0⟩, ⟨"alarm.hum_out.lo", 55, ub, 1.0⟩,
  ⟨"alarm.temp_out.hi", 56, ss, 0.1⟩, ⟨"alarm.temp_out.lo", 58, ss, 0.1⟩,
  ⟨"alarm.windchill.hi", 60, ss, 0.1⟩, ⟨"alarm.windchill.lo", 62, ss, 0.1⟩,
  ⟨"alarm.dewpoint.hi", 64, ss, 0.1⟩, ⟨"alarm.dewpoint.lo", 66, ss, 0.1⟩,
  ⟨"alarm.abs_pressure.hi", 68, ss, 0.1⟩, ⟨"alarm.abs_pressure.lo", 70, ss, 0.1⟩,
  ⟨"alarm.rel_pressure.hi", 72, ss, 0.1⟩, ⟨"alarm.rel_pressure.lo", 74, ss, 0.1⟩,
  ⟨"alarm.wind_ave.bft", 76, ub, 1.0⟩, ⟨"alarm.wind_ave.ms", 77, ub, 0.1⟩,
  ⟨"alarm.wind_gust.bft", 79, ub, 1.0⟩, ⟨"alarm.wind_gust.ms", 80, ub, 0.1⟩,
  ⟨"alarm.wind_dir", 82, ub, 22.5⟩,
  ⟨"alarm.rain.hour", 83, us, 0.3⟩, ⟨"alarm.rain.day", 85, us, 0.3⟩,
  ⟨"alarm.time", 87, tt, 1.0⟩
]

/-- The maximums with timestamps section of the table. -/
def ws_format_max : List ws_record := [
  ⟨"max.hum_in.val", 98, ub, 1.0⟩, ⟨"max.hum_in.date", 141, dt, 1.0⟩,
  ⟨"max.hum_out.val", 100, ub, 1.0⟩, ⟨"max.hum_out.date", 151, dt, 1.0⟩,
  ⟨"max.temp_in.val", 102, ss, 0.1⟩, ⟨"max.temp_in.date", 161, dt, 1.0⟩,
  ⟨"max.temp_out.val", 106, ss, 0.1⟩, ⟨"max.temp_out.date", 171, dt, 1.0⟩,
  ⟨"max.windchill.val", 110, ss, 0.1⟩, ⟨"max.windchill.date", 181, dt, 1.0⟩,
  ⟨"max.dewpoint.val", 114, ss, 0.1⟩, ⟨"max.dewpoint.date", 191, dt, 1.0⟩,
  ⟨"max.abs_pressure.val", 118, us, 0.1⟩, ⟨"max.abs_pressure.date", 201, dt, 1.0⟩,
  ⟨"max.rel_pressure.val", 122, us, 0.1⟩, ⟨"max.rel_pressure.date", 211, dt, 1.0⟩,
  ⟨"max.wind_ave.val", 126, us, 0.1⟩, ⟨"max.wind_ave.date", 221, dt, 1.0⟩,
  ⟨"max.wind_gust.val", 128, us, 0.1⟩, ⟨"max.wind_gust.date", 226, dt, 1.0⟩,
  ⟨"max.rain.hour.val", 130, us, 0.3⟩, ⟨"max.rain.hour.date", 231, dt, 1.0⟩,
  ⟨"max.rain.day.val", 132, us, 0.3⟩, ⟨"max.rain.day.date", 236, dt, 1.0⟩,
  ⟨"max.rain.week.val", 134, us, 0.3⟩, ⟨"max.rain.week.date", 241, dt, 1.0⟩,
  ⟨"max.rain.month.val", 136, us, 0.3⟩, ⟨"max.rain.month.date", 246, dt, 1.0⟩,
  ⟨"max.rain.total.val", 138, us, 0.3⟩, ⟨"max.rain.total.date", 251, dt, 1.0⟩
]

/-- The minimums with timestamps section of the table. -/
def ws_format_min : List ws_record := [
  ⟨"min.hum_in.val", 99, ub, 1.0⟩, ⟨"min.hum_in.date", 146, dt, 1.0⟩,
  ⟨"min.hum_out.val", 101, ub, 1.0⟩, ⟨"min.hum_out.date", 156, dt, 1.0⟩,
  ⟨"min.temp_in.val", 104, ss, 0.1⟩, ⟨"min.temp_in.date", 166, dt, 1.0⟩,
  ⟨"min.temp_out.val", 108, ss, 0.1⟩, ⟨"min.temp_out.date", 176, dt, 1.0⟩,
  ⟨"min.windchill.val", 112, ss, 0.1⟩, ⟨"min.windchill.date", 186, dt, 1.0⟩,
  ⟨"min.dewpoint.val", 116, ss, 0.1⟩, ⟨"min.dewpoint.date", 196, dt, 1.0⟩,
  ⟨"min.abs_pressure.val", 120, us, 0.1⟩, ⟨"min.abs_pressure.date", 206, dt, 1.0⟩,
  ⟨"min.rel_pressure.val", 124, us, 0.1⟩, ⟨"min.rel_pressure.date", 216, dt, 1.0⟩
]

/-- The calculated rainfall section of the table (must be calculated prior to every record). -/
def ws_format_rain : List ws_record := [
  ⟨"rain.hour", WS_RAIN_HOUR, us, 0.3⟩,
  ⟨"rain.day", WS_RAIN_DAY, us, 0.3⟩,
  ⟨"rain.week", WS_RAIN_WEEK, us, 0.3⟩,
  ⟨"rain.month", WS_RAIN_MONTH, us, 0.3⟩
]

/-- Table for decoding raw weather station data: the sections above in the order of the
C initialiser. -/
def ws_format : List ws_record :=
  ws_format_record ++ ws_format_fixed ++ ws_format_alarm ++
  ws_format_max ++ ws_format_min ++ ws_format_rain

/-- Table for creating the pywws format string. -/
def pywws_format : List pywws_record := [
  ⟨"delay", 0, ub, 1.0⟩,
  ⟨"hum_in", 1, ub, 1.0⟩,
  ⟨"temp_in", 2, ss, 0.1⟩,
  ⟨"hum_out", 4, ub, 1.0⟩,
  ⟨"temp_out", 5, ss, 0.1⟩,
  ⟨"abs_pressure", 7, us, 0.1⟩,
  ⟨"wind_ave", 9, wa, 0.1⟩,
  ⟨"wind_gust", 10, wg, 0.1⟩,
  ⟨"wind_dir", 12, ub, 1.0⟩,
  ⟨"rain", 13, us, 0.3⟩,
  ⟨"status", 15, pb, 1.0⟩
]

/-- Table for creating the Wunderground format string. -/
def wug_format : List wug_record := [
  ⟨"winddir", WS_WIND_DIR, ub, WS_SCALE_OFFS_TO_DEGREE, WS_OFFSET_DEFAULT⟩,
  ⟨"windspeedmph", WS_WIND_AVE, wa, WS_SCALE_MS_TO_MPH, WS_OFFSET_DEFAULT⟩,
  ⟨"windgustmph", WS_WIND_GUST, wg, WS_SCALE_MS_TO_MPH, WS_OFFSET_DEFAULT⟩,
  ⟨"humidity", WS_HUMIDITY_OUT, ub, WS_SCALE_DEFAULT, WS_OFFSET_DEFAULT⟩,
  ⟨"tempf", WS_TEMPERATURE_OUT, ss, WS_SCALE_C_TO_F, WS_OFFSET_C_TO_F⟩,
  ⟨"rainin", WS_RAIN_HOUR, us, WS_SCALE_CM_TO_IN, WS_OFFSET_DEFAULT⟩,
  ⟨"dailyrainin", WS_RAIN_DAY, us, WS_SCALE_CM_TO_IN, WS_OFFSET_DEFAULT⟩,
  ⟨"baromin", WS_ABS_PRESSURE, us, WS_SCALE_HPA_TO_INHG, WS_OFFSET_DEFAULT⟩,
  ⟨"dewptf", 0, dp, WS_SCALE_C_TO_F, WS_OFFSET_C_TO_F⟩
]

/-- Table for creating the PWS Weather format string. -/
def pws_format : List pws_record := [
  ⟨"winddir", WS_WIND_DIR, ub, WS_SCALE_OFFS_TO_DEGREE, WS_OFFSET_DEFAULT⟩,
  ⟨"windspeedmph", WS_WIND_AVE, wa, WS_SCALE_MS_TO_MPH, WS_OFFSET_DEFAULT⟩,
  ⟨"windgustmph", WS_WIND_GUST, wg, WS_SCALE_MS_TO_MPH, WS_OFFSET_DEFAULT⟩,
  ⟨"tempf", WS_TEMPERATURE_OUT, ss, WS_SCALE_C_TO_F, WS_OFFSET_C_TO_F⟩,
  ⟨"rainin", WS_RAIN_HOUR, us, WS_SCALE_CM_TO_IN, WS_OFFSET_DEFAULT⟩,
  ⟨"dailyrainin", WS_RAIN_DAY, us, WS_SCALE_CM_TO_IN, WS_OFFSET_DEFAULT⟩,
  ⟨"baromin", WS_ABS_PRESSURE, us, WS_SCALE_HPA_TO_INHG, WS_OFFSET_DEFAULT⟩,
  ⟨"dewptf", 0, dp, WS_SCALE_C_TO_F, WS_OFFSET_C_TO_F⟩,
  ⟨"humidity", WS_HUMIDITY_OUT, ub, WS_SCALE_DEFAULT, WS_OFFSET_DEFAULT⟩
]

/-! ## Projections shared by the four tables -/

/-- The region a descriptor's `pos` is relative to: a 16-byte log record (at `current_pos`)
or the fixed block at the start of the buffer. -/
inductive Region where
  | record | fixed
  deriving DecidableEq, Repr

/-- Modelled from the spec: which region each entry of `ws_format` addresses (the base address
is chosen by the caller in `fowsr.c`, which is not part of the header).  The first 11 entries
are the "up to 4080 records with this format", all later entries lie in the fixed block. -/
def ws_region (i : Nat) : Region := if i < 11 then Region.record else Region.fixed

/-- Modelled from the spec: every entry of `pywws_format` addresses the log record. -/
def pywws_region (_i : Nat) : Region := Region.record

/-- Modelled from the spec: an upload descriptor addresses the log record, except the two
calculated rain windows (`rainin`, `dailyrainin`), which are read at `WS_RAIN_HOUR` and
`WS_RAIN_DAY` in the fixed block. -/
def upload_region (name : String) : Region :=
  if name = "rainin" ∨ name = "dailyrainin" then Region.fixed else Region.record

/-- Modelled from the spec: the number of raw bytes a type tag occupies at `pos`
(`CWS_decode` itself is only declared in the header): 1 for `ub`, `sb`, `pb`, `wa`, `wg`,
2 for `us`, `ss`, `tt`, 5 for `dt`; `dp` is derived and stores nothing. -/
def width : ws_types → Nat
  | ub => 1 | sb => 1 | pb => 1 | wa => 1 | wg => 1
  | us => 2 | ss => 2 | tt => 2
  | dt => 5
  | dp => 0

/-- The bytes a descriptor occupies: its region, its first byte and its type tag. -/
structure Extent where
  region : Region
  pos : Nat
  ws_type : ws_types
  deriving DecidableEq, Repr

def ws_extents : List Extent :=
  ws_format.enum.map fun e => ⟨ws_region e.1, e.2.pos, e.2.ws_type⟩

def pywws_extents : List Extent :=
  pywws_format.enum.map fun e => ⟨pywws_region e.1, e.2.pos, e.2.ws_type⟩

def wug_extents : List Extent :=
  wug_format.map fun r => ⟨upload_region r.name, r.pos, r.ws_type⟩

def pws_extents : List Extent :=
  pws_format.map fun r => ⟨upload_region r.name, r.pos, r.ws_type⟩

/-- Two stored descriptors of the same region share at least one byte. -/
def overlaps (a b : Extent) : Bool :=
  decide (a.region = b.region) && decide (a.ws_type ≠ dp) && decide (b.ws_type ≠ dp) &&
  decide (a.pos < b.pos + width b.ws_type) && decide (b.pos < a.pos + width a.ws_type)

/-- No two entries of the list overlap. -/
def disjoint_ranges (l : List Extent) : Prop :=
  l.Pairwise fun a b => overlaps a b = false

instance (l : List Extent) : Decidable (disjoint_ranges l) := by
  unfold disjoint_ranges; infer_instance

/-! ## Station memory model -/

/-- Modelled from the spec: `address_of(slot_index) = 0x100 + (slot_index mod 4080) * 16`
(the header has the constants but no such function). -/
def address_of (slot_index : Nat) : Nat :=
  WS_BUFFER_START + (slot_index % 4080) * WS_BUFFER_RECORD

/-- Modelled from the spec: `CWS_dec_ptr` is only declared in the header.  The spec gives
`previous_slot(addr) = addr - 16`, wrapping to `0xFFF0` when `addr == 0x100`; the subtraction
is that of an `unsigned short`. -/
def CWS_dec_ptr (ptr : Nat) : Nat :=
  if ptr = WS_BUFFER_START then WS_BUFFER_END
  else (ptr + 0x10000 - WS_BUFFER_RECORD) % 0x10000

/-- Modelled from the spec: the slot following `addr` is `addr + 16`, and the slot following
`0xFFF0` is `0x100` (the header declares no such function). -/
def next_slot (addr : Nat) : Nat :=
  if addr = WS_BUFFER_END then WS_BUFFER_START
  else (addr + WS_BUFFER_RECORD) % 0x10000

/-- A log slot address: inside the circular log and a multiple of the record size. -/
def is_slot (a : Nat) : Prop :=
  WS_BUFFER_START ≤ a ∧ a ≤ WS_BUFFER_END ∧ a % WS_BUFFER_RECORD = 0

instance (a : Nat) : Decidable (is_slot a) := by
  unfold is_slot; infer_instance

/-! ## Byte decoder -/

/-- The result of decoding one descriptor. -/
inductive Decoded where
  /-- A physical value, `raw * scale + offset`. -/
  | value (v : ℚ)
  /-- The sentinel was read: sensor not connected or reading invalid. -/
  | invalid
  /-- The packed status byte, unscaled. -/
  | status (bits : Nat)
  /-- A BCD date and time: year, month, day, hour, minute. -/
  | date_time (year month day hour minute : Nat)
  /-- A BCD time of day: hour, minute. -/
  | time_of_day (hour minute : Nat)
  /-- A BCD nibble out of range. -/
  | fault
  /-- The field is derived (dew point), not decoded from stored bytes. -/
  | derived
  deriving DecidableEq, Repr

/-- The byte `raw[i]` read as an `unsigned char`. -/
def byte_at (raw : List Nat) (i : Nat) : Nat := raw.getD i 0 % 256

/-- Modelled from the spec: `CWS_bcd_decode` is only declared in the header.  Each nibble is a
decimal digit 0-9; a nibble of 10-15 is a decode fault (`none`). -/
def CWS_bcd_decode (byte : Nat) : Option Nat :=
  if byte / 16 % 16 ≤ 9 ∧ byte % 16 ≤ 9 then some (byte / 16 % 16 * 10 + byte % 16) else none

/-- Modelled from the spec: `CWS_unsigned_short` is only declared in the header.  Little-endian
extraction of an unsigned 16-bit integer. -/
def CWS_unsigned_short (raw : List Nat) : Nat :=
  byte_at raw 1 * 256 + byte_at raw 0

/-- Modelled from the spec: `CWS_signed_short` is only declared in the header.  Little-endian
extraction of a signed 16-bit integer, read as the C type `signed short` (two's complement);
for a value whose top bit is clear this is the unsigned value. -/
def CWS_signed_short (raw : List Nat) : Int :=
  if CWS_unsigned_short raw < 0x8000 then (CWS_unsigned_short raw : Int)
  else (CWS_unsigned_short raw : Int) - 0x10000

/-- A byte read as a signed 8-bit integer. -/
def signed_byte (b : Nat) : Int :=
  if b % 256 < 0x80 then ((b % 256 : Nat) : Int) else ((b % 256 : Nat) : Int) - 0x100

/-- Modelled from the spec: `CWS_decode` is only declared in the header.  `raw` points at the
descriptor's `pos`.
* `ub`, `sb`, `us`, `ss`: little-endian extraction; sentinel `0xFF` / `0xFFFF` gives invalid,
  otherwise `raw * scale + offset`.
* `pb`: the packed status byte, never invalid, no scaling.
* `dt`, `tt`: BCD bytes; a nibble of 10-15 is a decode fault.
* `wa`, `wg`: the stored byte holds the low 8 bits of a 12-bit speed, the high 4 bits are in the
  shared byte at offset 11 (`raw[2]` bits 0-3 for the average at offset 9, `raw[1]` bits 4-7
  for the gust at offset 10); low byte `0xFF` with high nibble `0xF` gives invalid.
* `dp`: not stored; the dew point is computed by `CWS_dew_point` in floating point, which this
  development does not embed. -/
def CWS_decode (raw : List Nat) (ws_type : ws_types) (scale offset : ℚ) : Decoded :=
  match ws_type with
  | ub =>
    if byte_at raw 0 = 0xFF then Decoded.invalid
    else Decoded.value ((byte_at raw 0 : ℚ) * scale + offset)
  | sb =>
    if byte_at raw 0 = 0xFF then Decoded.invalid
    else Decoded.value ((signed_byte (byte_at raw 0) : ℚ) * scale + offset)
  | us =>
    if CWS_unsigned_short raw = 0xFFFF then Decoded.invalid
    else Decoded.value ((CWS_unsigned_short raw : ℚ) * scale + offset)
  | ss =>
    if CWS_unsigned_short raw = 0xFFFF then Decoded.invalid
    else Decoded.value ((CWS_signed_short raw : ℚ) * scale + offset)
  | dt =>
    match CWS_bcd_decode (byte_at raw 0), CWS_bcd_decode (byte_at raw 1),
        CWS_bcd_decode (byte_at raw 2), CWS_bcd_decode (byte_at raw 3),
        CWS_bcd_decode (byte_at raw 4) with
    | some y, some mo, some d, some h, some mi => Decoded.date_time y mo d h mi
    | _, _, _, _, _ => Decoded.fault
  | tt =>
    match CWS_bcd_decode (byte_at raw 0), CWS_bcd_decode (byte_at raw 1) with
    | some h, some mi => Decoded.time_of_day h mi
    | _, _ => Decoded.fault
  | pb => Decoded.status (byte_at raw 0)
  | wa =>
    if byte_at raw 0 = 0xFF ∧ byte_at raw 2 % 16 = 0xF then Decoded.invalid
    else Decoded.value ((((byte_at raw 2 % 16) <<< 8 ||| byte_at raw 0 : Nat) : ℚ) * scale + offset)
  | wg =>
    if byte_at raw 0 = 0xFF ∧ byte_at raw 1 / 16 = 0xF then Decoded.invalid
    else Decoded.value ((((byte_at raw 1 / 16) <<< 8 ||| byte_at raw 0 : Nat) : ℚ) * scale + offset)
  | dp => Decoded.derived

/-- Decoding a `ws_format` descriptor against the bytes of its region: `ws_record` has no
offset member, so the offset is `WS_OFFSET_DEFAULT`. -/
def decode_ws (region : List Nat) (r : ws_record) : Decoded :=
  CWS_decode (region.drop r.pos) r.ws_type r.scale WS_OFFSET_DEFAULT

/-- Decoding a `pywws_format` descriptor against a 16-byte log record. -/
def decode_pywws (slot : List Nat) (r : pywws_record) : Decoded :=
  CWS_decode (slot.drop r.pos) r.ws_type r.scale WS_OFFSET_DEFAULT

/-- Decoding a `wug_format` descriptor against the bytes of its region. -/
def decode_wug (region : List Nat) (r : wug_record) : Decoded :=
  CWS_decode (region.drop r.pos) r.ws_type r.scale r.offset

/-- Decoding a `pws_format` descriptor against the bytes of its region. -/
def decode_pws (region : List Nat) (r : pws_record) : Decoded :=
  CWS_decode (region.drop r.pos) r.ws_type r.scale r.offset

/-- The current-slot bytes of the specification's scenario. -/
def scenario_slot : List Nat :=
  [0x08, 0x37, 0xD9, 0x00, 0x32, 0xD4, 0x00, 0xF6, 0x03, 0x14, 0x00, 0x32, 0x00, 0x00, 0x34, 0x00]

/-- The first descriptor of `ws_format` with the given name. -/
def ws_field (name : String) : Option ws_record :=
  ws_format.find? fun r => r.name = name

/-- The first descriptor of `pywws_format` with the given name. -/
def pywws_field (name : String) : Option pywws_record :=
  pywws_format.find? fun r => r.name = name

/-- The first descriptor of `wug_format` with the given name. -/
def wug_field (name : String) : Option wug_record :=
  wug_format.find? fun r => r.name = name

/-- The first descriptor of `pws_format` with the given name. -/
def pws_field (name : String) : Option pws_record :=
  pws_format.find? fun r => r.name = name

/-- The fixed block of a station that holds one stored reading: `data_count` (bytes 27-28) is 1
and the `data_refreshed` byte 26 is clear; every other byte is zero. -/
def fixed_block_one_reading : List Nat :=
  List.replicate 27 0 ++ [0x01] ++ List.replicate 228 0

/-- A log record whose outdoor temperature (bytes 5-6) holds the raw value 217 = `0x00D9`. -/
def scenario_temp_out_217 : List Nat :=
  [0x08, 0x37, 0xD9, 0x00, 0x32, 0xD9, 0x00, 0xF6, 0x03, 0x14, 0x00, 0x32, 0x00, 0x00, 0x34, 0x00]

/-! ## Rain aggregator -/

/-- The byte of the raw station memory `m_buf` at an address, read as `unsigned char`. -/
def read_byte (m_buf : Nat → Nat) (addr : Nat) : Nat :=
  byte_at [m_buf addr] 0

/-- The unsigned 16-bit value of `m_buf` at an address: `CWS_unsigned_short(&m_buf[addr])`. -/
def read_unsigned_short (m_buf : Nat → Nat) (addr : Nat) : Nat :=
  CWS_unsigned_short [m_buf addr, m_buf (addr + 1)]

/-- Writing an unsigned 16-bit value into `m_buf`, low byte first. -/
def store_unsigned_short (m_buf : Nat → Nat) (addr value : Nat) : Nat → Nat :=
  fun a => if a = addr then value % 256 else if a = addr + 1 then value / 256 % 256 else m_buf a

/-- The cumulative rain counter of the slot at `pos` (offset `WS_RAIN`, type `us`). -/
def rain_raw (m_buf : Nat → Nat) (pos : Nat) : Nat :=
  read_unsigned_short m_buf (pos + WS_RAIN)

/-- The `delay` field of the slot at `pos`: minutes since the prior stored reading. -/
def delay_raw (m_buf : Nat → Nat) (pos : Nat) : Nat :=
  read_byte m_buf (pos + WS_DELAY)

/-- The minutes accumulated after `k` backward steps from `current_pos`: the sum of the `delay`
fields of the first `k` slots left behind. -/
def elapsed_after (m_buf : Nat → Nat) (current_pos : Nat) : Nat → Nat
  | 0 => 0
  | k + 1 => elapsed_after m_buf current_pos k +
      delay_raw m_buf (Nat.iterate CWS_dec_ptr k current_pos)

/-- The state of the backward walk through the log: the slot reached, the minutes accumulated,
the backward steps taken, and whether every traversed slot had a valid rain reading. -/
structure RainWalk where
  pos : Nat
  elapsed : Nat
  steps : Nat
  valid : Bool
  deriving DecidableEq, Repr

/-- The walk starts at the current slot with no time elapsed. -/
def rain_walk_init (m_buf : Nat → Nat) (current_pos : Nat) : RainWalk :=
  ⟨current_pos, 0, 0, decide (rain_raw m_buf current_pos ≠ 0xFFFF)⟩

/-- The walk goes on while fewer than `data_count` backward steps were taken and the accumulated
time is still below the window length. -/
def rain_walk_continue (data_count window : Nat) (s : RainWalk) : Bool :=
  decide (s.steps < data_count) && decide (s.elapsed < window)

/-- One backward step: add the delay of the slot being left, move to the previous slot with
wraparound, and note whether its rain reading is the sentinel. -/
def rain_walk_step (m_buf : Nat → Nat) (s : RainWalk) : RainWalk :=
  ⟨CWS_dec_ptr s.pos, s.elapsed + delay_raw m_buf s.pos, s.steps + 1,
    s.valid && decide (rain_raw m_buf (CWS_dec_ptr s.pos) ≠ 0xFFFF)⟩

/-- Modelled from the spec: the backward traversal of `CWS_calculate_rain` (declared only in the
header), run with a bound on the number of loop iterations; `none` means the bound was reached
before the loop ended. -/
def rain_walk (m_buf : Nat → Nat) (data_count window : Nat) : Nat → RainWalk → Option RainWalk
  | 0, s => if rain_walk_continue data_count window s then none else some s
  | fuel + 1, s =>
    if rain_walk_continue data_count window s then
      rain_walk m_buf data_count window fuel (rain_walk_step m_buf s)
    else some s

/-- The rainfall of a window once the walk has stopped at its boundary slot: invalid (`0xFFFF`)
if a traversed slot had an invalid rain reading, otherwise `R0 - R_boundary` clamped to zero. -/
def rain_result (m_buf : Nat → Nat) (current_pos : Nat) (s : RainWalk) : Nat :=
  if s.valid then rain_raw m_buf current_pos - rain_raw m_buf s.pos else 0xFFFF

/-- The oldest available slot of the log: the log holds `data_count` entries, the current slot
included, so the oldest one lies `data_count - 1` backward steps from `current_pos`. -/
def oldest_slot (current_pos data_count : Nat) : Nat :=
  Nat.iterate CWS_dec_ptr (data_count - 1) current_pos

/-- Modelled from the spec: the rainfall of one window (length in minutes), as computed by
`CWS_calculate_rain` / `CWS_calculate_rain_period`, which the header only declares.  Starting at
the current slot the log is walked backward, accumulating each slot's `delay`, until the
accumulated time meets or exceeds the window length or the oldest available slot is reached,
which takes `data_count - 1` backward steps (within the cap of `data_count` steps); the result
is the clamped difference of the rain counters of the current slot and of the slot reached. -/
def rain_window (m_buf : Nat → Nat) (current_pos data_count window : Nat) : Option Nat :=
  (rain_walk m_buf (data_count - 1) window (data_count - 1)
    (rain_walk_init m_buf current_pos)).map (rain_result m_buf current_pos)

/-- Window lengths in minutes: 1 hour, 24 hours, 7 days. -/
def WINDOW_HOUR : Nat := 60
def WINDOW_DAY : Nat := 24 * 60
def WINDOW_WEEK : Nat := 7 * 24 * 60

/-- Modelled from the spec: `CWS_calculate_rain` (declared only in the header) fills the four
calculated rain fields of the fixed block.  The month window is month-to-date, so its length in
minutes is an argument; the third parameter `start` of the C declaration is not described by
the spec and is left out. -/
def CWS_calculate_rain (m_buf : Nat → Nat) (current_pos data_count month_minutes : Nat) :
    Option (Nat → Nat) :=
  match rain_window m_buf current_pos data_count WINDOW_HOUR,
      rain_window m_buf current_pos data_count WINDOW_DAY,
      rain_window m_buf current_pos data_count WINDOW_WEEK,
      rain_window m_buf current_pos data_count month_minutes with
  | some h, some d, some w, some m =>
    some (store_unsigned_short (store_unsigned_short (store_unsigned_short
      (store_unsigned_short m_buf WS_RAIN_HOUR h) WS_RAIN_DAY d) WS_RAIN_WEEK w) WS_RAIN_MONTH m)
  | _, _, _, _ => none

/-- A log of four readings at `0x100`, `0x110`, `0x120` and the current slot `0x130`, with rain
counters 10, 25, 40 and 60, each stored 30 minutes after its predecessor. -/
def four_reading_log : Nat → Nat :=
  fun a => if a = 0x100 ∨ a = 0x110 ∨ a = 0x120 ∨ a = 0x130 then 30
    else if a = 0x10D then 10 else if a = 0x11D then 25
    else if a = 0x12D then 40 else if a = 0x13D then 60 else 0

/-- A log whose delay fields and rain counters are all zero. -/
def zero_log : Nat → Nat := fun _ => 0

/-- The number of bytes, counted from `pos`, that the model of `CWS_decode` reads for a type
tag: the bytes of the field itself, and for `wa` and `wg` also the shared high-bits byte
(`raw[2]` and `raw[1]`). -/
def reach : ws_types → Nat
  | ub => 1 | sb => 1 | pb => 1
  | us => 2 | ss => 2 | tt => 2
  | dt => 5
  | wa => 3
  | wg => 2
  | dp => 0

/-- The position of the shared wind high-bits byte read for a `wa` or `wg` descriptor. -/
def high_bits_pos (pos : Nat) : ws_types → Option Nat
  | wa => some (pos + 2)
  | wg => some (pos + 1)
  | _ => none

/-- The station-stored part of the fixed block in `ws_format`: every fixed block entry except
the four calculated rain windows. -/
def ws_format_stored_fixed : List ws_record :=
  ws_format_fixed ++ ws_format_alarm ++ ws_format_max ++ ws_format_min

/-! ## Name arrays -/

/-- The size of the `name` member of `struct ws_record` and `struct pywws_record`:
`char name[22]`. -/
def WS_NAME_SIZE : Nat := 22

/-- The size of the `name` member of `struct wug_record` and `struct pws_record`:
`char name[13]`. -/
def UPLOAD_NAME_SIZE : Nat := 13

/-- The contents of a `char name[size]` member initialised from a string literal: the
characters of the literal followed by zero bytes up to `size`; `none` when the literal has
more than `size` characters, which a C compiler rejects.  A literal of exactly `size`
characters fills the array and leaves no room for the terminating NUL. -/
def char_array (size : Nat) (literal : String) : Option (List Nat) :=
  if literal.length ≤ size then
    some (literal.data.map Char.toNat ++ List.replicate (size - literal.length) 0)
  else none

/-- The C string held by a character array: the bytes before the first NUL, or `none` when the
array holds no NUL. -/
def c_string (array : List Nat) : Option (List Nat) :=
  if 0 ∈ array then some (array.takeWhile fun b => b != 0) else none

/-- A name is a proper C string in an array of `size` bytes: its characters are non-NUL ASCII
and it is shorter than the array. -/
def fits_with_nul (size : Nat) (literal : String) : Bool :=
  decide (literal.length + 1 ≤ size) &&
    literal.data.all fun c => decide (0 < c.toNat) && decide (c.toNat < 128)

/-! ## Binary floating point

The `scale` and `offset` members of the tables are C `float`s, initialised from constant
expressions that C evaluates in `double`.  The tables above keep the decimal literals as exact
rationals; the definitions below give the binary values the members actually hold. -/

/-- A non-negative binary floating-point value `mant / 2 ^ shift`. -/
structure Binary where
  mant : Nat
  shift : Nat
  deriving DecidableEq, Repr

/-- The rational value of a binary floating-point number. -/
def Binary.value (b : Binary) : ℚ := (b.mant : ℚ) / 2 ^ b.shift

/-- The number of binary digits of `n`, computed with a bound on the recursion depth. -/
def bit_length_aux : Nat → Nat → Nat
  | 0, _ => 0
  | fuel + 1, n => if n = 0 then 0 else bit_length_aux fuel (n / 2) + 1

/-- The number of binary digits of `n` (0 for 0). -/
def bit_length (n : Nat) : Nat := bit_length_aux n n

/-- The fraction `n / d` (with `0 < d`) rounded to `p` significant binary digits, to nearest
with ties to even, as IEEE 754 does for normal numbers (the exponent range is not modelled;
every value of the tables is a normal number).  The quotient is first taken with more than `p`
digits, then the surplus digits are dropped and the last kept digit is rounded up when the
dropped part exceeds one half, or equals one half and the kept part is odd. -/
def round_binary (p n d : Nat) : Binary :=
  let s := p + bit_length d
  let a := n * 2 ^ s / d
  let sticky := n * 2 ^ s % d
  let surplus := bit_length a - p
  let q := a / 2 ^ surplus
  let r := a % 2 ^ surplus
  let half := 2 ^ (surplus - 1)
  let up := decide (half < r) ||
    (decide (r = half) && (decide (sticky ≠ 0) || decide (q % 2 = 1)))
  let m := if up then q + 1 else q
  if surplus ≤ s then ⟨m, s - surplus⟩ else ⟨m * 2 ^ (surplus - s), 0⟩

/-- A decimal literal `n / d` read as a C `double` (53 significant bits). -/
def double_literal (n d : Nat) : Binary := round_binary 53 n d

/-- The product of two `double`s, rounded to `double`. -/
def double_mul (a b : Binary) : Binary :=
  round_binary 53 (a.mant * b.mant) (2 ^ (a.shift + b.shift))

/-- A `double` converted to `float` (24 significant bits). -/
def double_to_float (a : Binary) : Binary := round_binary 24 a.mant (2 ^ a.shift)

/-- The product of two `float`s, rounded to `float`. -/
def float_mul (a b : Binary) : Binary :=
  round_binary 24 (a.mant * b.mant) (2 ^ (a.shift + b.shift))

/-- The sum of two `float`s, rounded to `float`. -/
def float_add (a b : Binary) : Binary :=
  round_binary 24 (a.mant * 2 ^ b.shift + b.mant * 2 ^ a.shift) (2 ^ (a.shift + b.shift))

/-- The value held by a `float scale` member initialised with `WS_SCALE_C_TO_F`, that is with
`1.8 * 0.1`: the product of the two `double` literals, converted to `float`. -/
def WS_SCALE_C_TO_F_float : Binary :=
  double_to_float (double_mul (double_literal 18 10) (double_literal 1 10))

/-- The value held by a `float offset` member initialised with `WS_OFFSET_C_TO_F` (`32.0`). -/
def WS_OFFSET_C_TO_F_float : Binary := double_to_float (double_literal 32 1)

/-- The value held by the `float scale` member of `temp_out` in `ws_format`, initialised with
`0.1`. -/
def temp_out_scale_float : Binary := double_to_float (double_literal 1 10)

/-! # Theorems -/

/-! ## The station memory model -/

theorem address_of_lt (i : Nat) : address_of i + WS_BUFFER_RECORD ≤ WS_BUFFER_SIZE := by
  unfold address_of WS_BUFFER_RECORD WS_BUFFER_SIZE WS_BUFFER_START
  have := Nat.mod_lt i (show 0 < 4080 by decide)
  omega

theorem address_of_is_slot (i : Nat) : is_slot (address_of i) := by
  unfold is_slot address_of WS_BUFFER_RECORD WS_BUFFER_END WS_BUFFER_START
  have := Nat.mod_lt i (show 0 < 4080 by decide)
  omega

theorem address_of_inj (i j : Nat) (hi : i < 4080) (hj : j < 4080)
    (h : address_of i = address_of j) : i = j := by
  unfold address_of WS_BUFFER_RECORD WS_BUFFER_START at h
  rw [Nat.mod_eq_of_lt hi, Nat.mod_eq_of_lt hj] at h
  omega

theorem is_slot_iff (a : Nat) : is_slot a ↔ ∃ i, i < 4080 ∧ address_of i = a := by
  constructor
  · intro h
    unfold is_slot WS_BUFFER_RECORD WS_BUFFER_END WS_BUFFER_START at h
    refine ⟨(a - 0x100) / 0x10, by omega, ?_⟩
    unfold address_of WS_BUFFER_RECORD WS_BUFFER_START
    rw [Nat.mod_eq_of_lt (by omega)]
    omega
  · rintro ⟨i, _, rfl⟩
    exact address_of_is_slot i

/-- C1: `address_of` maps the slot indices 0..4079 one-to-one onto exactly the 16-byte-aligned
addresses of `[WS_BUFFER_START, WS_BUFFER_END]`, so there are exactly 4080 slots, and for every
natural index the 16 bytes of the slot lie at or above the 256-byte control block and wholly
below `WS_BUFFER_SIZE`, the size of `m_buf`. -/
theorem address_of_bijective_in_buffer :
    WS_BUFFER_START = 0x100 ∧ WS_BUFFER_END = 0xFFF0 ∧ WS_BUFFER_RECORD = 0x10 ∧
    WS_BUFFER_SIZE = 0x10000 ∧
    (∀ i j, i < 4080 → j < 4080 → address_of i = address_of j → i = j) ∧
    (∀ a, (WS_BUFFER_START ≤ a ∧ a ≤ WS_BUFFER_END ∧ a % 16 = 0) ↔
      ∃ i, i < 4080 ∧ address_of i = a) ∧
    ((Finset.range WS_BUFFER_SIZE).filter fun a =>
      WS_BUFFER_START ≤ a ∧ a ≤ WS_BUFFER_END ∧ a % 16 = 0).card = 4080 ∧
    (∀ i, 256 ≤ address_of i ∧ address_of i + 16 ≤ 0x10000 ∧
      ∀ k, k < WS_BUFFER_RECORD → address_of i + k < WS_BUFFER_SIZE) := by
  refine ⟨rfl, rfl, rfl, rfl, address_of_inj, is_slot_iff, ?_, ?_⟩
  · have himg : ((Finset.range WS_BUFFER_SIZE).filter fun a =>
        WS_BUFFER_START ≤ a ∧ a ≤ WS_BUFFER_END ∧ a % 16 = 0) =
        (Finset.range 4080).image address_of := by
      ext a
      simp only [Finset.mem_filter, Finset.mem_range, Finset.mem_image]
      constructor
      · rintro ⟨_, h⟩
        obtain ⟨i, hi, rfl⟩ := (is_slot_iff a).mp h
        exact ⟨i, hi, rfl⟩
      · rintro ⟨i, _, rfl⟩
        have h1 := address_of_lt i
        have h2 := address_of_is_slot i
        unfold WS_BUFFER_RECORD at h1
        exact ⟨by omega, h2⟩
    rw [himg, Finset.card_image_of_injOn, Finset.card_range]
    intro i hi j hj h
    exact address_of_inj i j (by simpa using hi) (by simpa using hj) h
  · intro i
    have h1 := address_of_lt i
    have h2 := address_of_is_slot i
    unfold is_slot WS_BUFFER_START at h2
    unfold WS_BUFFER_RECORD WS_BUFFER_SIZE at h1
    refine ⟨by omega, by omega, ?_⟩
    intro k hk
    unfold WS_BUFFER_RECORD at hk
    unfold WS_BUFFER_SIZE
    omega

/-- C2: for every slot address `a` of the log (a multiple of 16 in `[0x100, 0xFFF0]`),
stepping forward and then back returns to `a`; `CWS_dec_ptr` is `a - 16` except at
`WS_BUFFER_START`, where it wraps to `WS_BUFFER_END`, and it never leaves the log range. -/
theorem dec_ptr_next_slot (a : Nat) (ha : is_slot a) :
    CWS_dec_ptr (next_slot a) = a ∧
    (a = 0x100 → CWS_dec_ptr a = 0xFFF0) ∧
    (a ≠ 0x100 → CWS_dec_ptr a = a - 16) ∧
    (a = 0xFFF0 → next_slot a = 0x100) ∧
    (a ≠ 0xFFF0 → next_slot a = a + 16) ∧
    is_slot (CWS_dec_ptr a) := by
  unfold is_slot WS_BUFFER_RECORD WS_BUFFER_END WS_BUFFER_START at *
  unfold CWS_dec_ptr next_slot WS_BUFFER_RECORD WS_BUFFER_END WS_BUFFER_START
  refine ⟨?_, ?_, ?_, ?_, ?_, ?_⟩
  · split_ifs <;> omega
  · intro h; simp [h]
  · intro h; rw [if_neg h]; omega
  · intro h; simp [h]
  · intro h; rw [if_neg h]; omega
  · split_ifs <;> omega

/-- The wraparound boundary: the slot after `0xFFF0` is `0x100`, whose predecessor is `0xFFF0`. -/
theorem dec_ptr_next_slot_at_end :
    is_slot 0xFFF0 ∧
    (CWS_dec_ptr (next_slot 0xFFF0) = 0xFFF0 ∧
    ((0xFFF0 : Nat) = 0x100 → CWS_dec_ptr 0xFFF0 = 0xFFF0) ∧
    ((0xFFF0 : Nat) ≠ 0x100 → CWS_dec_ptr 0xFFF0 = 0xFFF0 - 16) ∧
    ((0xFFF0 : Nat) = 0xFFF0 → next_slot 0xFFF0 = 0x100) ∧
    ((0xFFF0 : Nat) ≠ 0xFFF0 → next_slot 0xFFF0 = 0xFFF0 + 16) ∧
    is_slot (CWS_dec_ptr 0xFFF0)) :=
  ⟨by decide, dec_ptr_next_slot 0xFFF0 (by decide)⟩

/-! ## The descriptor tables -/

set_option maxRecDepth 100000 in
/-- C3: the byte ranges of the stored descriptors of one region are pairwise disjoint in
`pywws_format`, `wug_format` and `pws_format`, and in `ws_format` once `data_refreshed` is left
out; but `data_refreshed` (entry 20, pos 26, type `us`, two bytes) shares byte 27 with
`data_count` (entry 21, pos 27, type `us`), so that a fixed block whose byte 26 is clear and
whose `data_count` is 1 decodes `data_refreshed` as 256. -/
theorem data_refreshed_overlaps_data_count :
    ws_format.get? 20 = some ⟨"data_refreshed", 26, us, 1.0⟩ ∧
    ws_format.get? 21 = some ⟨"data_count", 27, us, 1.0⟩ ∧
    ws_extents.get? 20 = some ⟨Region.fixed, 26, us⟩ ∧
    ws_extents.get? 21 = some ⟨Region.fixed, 27, us⟩ ∧
    overlaps ⟨Region.fixed, 26, us⟩ ⟨Region.fixed, 27, us⟩ = true ∧
    ¬ disjoint_ranges ws_extents ∧
    disjoint_ranges (ws_extents.eraseIdx 20) ∧
    disjoint_ranges pywws_extents ∧
    disjoint_ranges wug_extents ∧
    disjoint_ranges pws_extents ∧
    fixed_block_one_reading.length = 256 ∧
    byte_at fixed_block_one_reading 26 = 0 ∧
    decode_ws fixed_block_one_reading ⟨"data_count", 27, us, 1.0⟩ = Decoded.value 1 ∧
    decode_ws fixed_block_one_reading ⟨"data_refreshed", 26, us, 1.0⟩ = Decoded.value 256 := by
  refine ⟨rfl, rfl, rfl, rfl, rfl, by decide, by decide, by decide, by decide, by decide,
    rfl, rfl, ?_, ?_⟩
  · simp [decode_ws, CWS_decode, CWS_unsigned_short, byte_at, fixed_block_one_reading,
      WS_OFFSET_DEFAULT]
    norm_num
  · simp [decode_ws, CWS_decode, CWS_unsigned_short, byte_at, fixed_block_one_reading,
      WS_OFFSET_DEFAULT]
    norm_num

set_option maxRecDepth 100000 in
/-- C4 fails as stated: `ws_format` carries the name `abs_pressure` twice, at entry 5
(log record, pos 7) and at entry 24 (fixed block, pos 34). -/
theorem ws_format_name_twice :
    ws_format.get? 5 = some ⟨"abs_pressure", 7, us, 0.1⟩ ∧
    ws_format.get? 24 = some ⟨"abs_pressure", 34, us, 0.1⟩ ∧
    ¬ (ws_format.map fun r => r.name).Nodup := by
  refine ⟨rfl, rfl, by decide⟩

set_option maxRecDepth 100000 in
/-- C4 as amended: within each table no two descriptors of the same region carry the same name;
the names of `pywws_format`, `wug_format` and `pws_format` are pairwise distinct outright, and
in `ws_format` the only name carried twice is `abs_pressure` (once for the log record, once for
the fixed block). -/
theorem names_unique_per_region :
    (ws_format.enum.map fun e => (ws_region e.1, e.2.name)).Nodup ∧
    ((ws_format.map fun r => r.name).erase "abs_pressure").Nodup ∧
    (pywws_format.map fun r => r.name).Nodup ∧
    (wug_format.map fun r => r.name).Nodup ∧
    (pws_format.map fun r => r.name).Nodup := by
  refine ⟨by decide, by decide, by decide, by decide, by decide⟩

/-- C5: `wug_format` defines exactly the nine Weather Underground keys, in this order. -/
theorem wug_format_keys :
    (wug_format.map fun r => r.name) =
      ["winddir", "windspeedmph", "windgustmph", "humidity", "tempf", "rainin", "dailyrainin",
       "baromin", "dewptf"] ∧
    wug_format.length = 9 := by
  exact ⟨rfl, rfl⟩

/-- C6: `pws_format` defines exactly the nine PWS Weather keys, in this order. -/
theorem pws_format_keys :
    (pws_format.map fun r => r.name) =
      ["winddir", "windspeedmph", "windgustmph", "tempf", "rainin", "dailyrainin", "baromin",
       "dewptf", "humidity"] ∧
    pws_format.length = 9 := by
  exact ⟨rfl, rfl⟩

/-! ## The byte decoder on the tables -/

theorem byte_at_drop (raw : List Nat) (n i : Nat) :
    byte_at (raw.drop n) i = byte_at raw (n + i) := by
  simp [byte_at, List.getD_eq_getElem?_getD, List.getElem?_drop]

theorem unsigned_short_drop (raw : List Nat) (n : Nat) :
    CWS_unsigned_short (raw.drop n) = byte_at raw (n + 1) * 256 + byte_at raw n := by
  simp [CWS_unsigned_short, byte_at_drop]

theorem byte_at_lt (raw : List Nat) (i : Nat) : byte_at raw i < 256 :=
  Nat.mod_lt _ (by decide)

theorem unsigned_short_sentinel (raw : List Nat) :
    CWS_unsigned_short raw = 0xFFFF ↔ byte_at raw 0 = 0xFF ∧ byte_at raw 1 = 0xFF := by
  have h0 := byte_at_lt raw 0
  have h1 := byte_at_lt raw 1
  unfold CWS_unsigned_short
  omega

/-- C7: for every 16-byte slot, when bytes 2..3 are not the sentinel `0xFFFF` the `temp_in`
descriptor of `ws_format` decodes to the signed 16-bit little-endian value of bytes 2..3 times
0.1 plus 0, and when byte 1 is not the sentinel `0xFF` the `hum_in` descriptor decodes to
byte 1 times 1.0 plus 0; on the scenario slot the raw temperature is 217, `temp_in` is 21.7
and `hum_in` is 55. -/
theorem decode_temp_in_hum_in :
    ws_field "temp_in" = some ⟨"temp_in", 2, ss, 0.1⟩ ∧
    ws_field "hum_in" = some ⟨"hum_in", 1, ub, 1.0⟩ ∧
    (∀ slot : List Nat, slot.length = 16 → (∀ b ∈ slot, b < 256) →
      (¬ (slot.getD 2 0 = 0xFF ∧ slot.getD 3 0 = 0xFF) →
        decode_ws slot ⟨"temp_in", 2, ss, 0.1⟩ =
          Decoded.value ((CWS_signed_short (slot.drop 2) : ℚ) * 0.1 + 0) ∧
        CWS_signed_short (slot.drop 2) =
          (if slot.getD 3 0 < 0x80 then (slot.getD 2 0 : Int) + 256 * (slot.getD 3 0 : Int)
           else (slot.getD 2 0 : Int) + 256 * (slot.getD 3 0 : Int) - 0x10000)) ∧
      (slot.getD 1 0 ≠ 0xFF →
        decode_ws slot ⟨"hum_in", 1, ub, 1.0⟩ =
          Decoded.value ((slot.getD 1 0 : ℚ) * 1.0 + 0))) ∧
    scenario_slot.length = 16 ∧
    CWS_signed_short (scenario_slot.drop 2) = 217 ∧
    decode_ws scenario_slot ⟨"temp_in", 2, ss, 0.1⟩ = Decoded.value 21.7 ∧
    decode_ws scenario_slot ⟨"hum_in", 1, ub, 1.0⟩ = Decoded.value 55 := by
  refine ⟨rfl, rfl, ?_, rfl, ?_, ?_, ?_⟩
  · intro slot hlen hb
    have hbyte : ∀ i, byte_at slot i = slot.getD i 0 := by
      intro i
      unfold byte_at
      apply Nat.mod_eq_of_lt
      rw [List.getD_eq_getElem?_getD]
      cases hi : slot[i]? with
      | none => simp
      | some b =>
        simp only [Option.getD_some]
        exact hb b (List.getElem?_mem hi)
    have h2 := byte_at_lt slot 2
    have h3 := byte_at_lt slot 3
    rw [hbyte 2] at h2
    rw [hbyte 3] at h3
    constructor
    · intro hs
      have hus : CWS_unsigned_short (slot.drop 2) = slot.getD 3 0 * 256 + slot.getD 2 0 := by
        rw [unsigned_short_drop, hbyte, hbyte]
      constructor
      · unfold decode_ws CWS_decode
        simp only [WS_OFFSET_DEFAULT]
        rw [if_neg]
        · norm_num
        · rw [hus]; omega
      · unfold CWS_signed_short
        rw [hus]
        split_ifs <;> push_cast <;> omega
    · intro hs
      unfold decode_ws CWS_decode
      simp only [WS_OFFSET_DEFAULT, byte_at_drop, hbyte]
      rw [if_neg hs]
      norm_num
  · decide
  · simp [decode_ws, CWS_decode, CWS_signed_short, CWS_unsigned_short, byte_at, scenario_slot,
      WS_OFFSET_DEFAULT]
    norm_num
  · simp [decode_ws, CWS_decode, byte_at, scenario_slot, WS_OFFSET_DEFAULT]
    norm_num

theorem signed_short_drop_cast (slot : List Nat) (n : Nat) (scale offset : ℚ) :
    CWS_decode (slot.drop n) ss scale offset =
      if CWS_unsigned_short (slot.drop n) = 0xFFFF then Decoded.invalid
      else Decoded.value ((CWS_signed_short (slot.drop n) : ℚ) * scale + offset) := rfl

theorem stored_float_values :
    WS_SCALE_C_TO_F_float.value = 3019899 / 16777216 ∧
    WS_OFFSET_C_TO_F_float.value = 32 ∧
    temp_out_scale_float.value = 13421773 / 134217728 ∧
    (float_add (float_mul ⟨217, 0⟩ WS_SCALE_C_TO_F_float) WS_OFFSET_C_TO_F_float).value =
      1164247 / 16384 := by
  have h1 : WS_SCALE_C_TO_F_float = ⟨12079596, 26⟩ := by
    set_option maxRecDepth 100000 in decide
  have h2 : WS_OFFSET_C_TO_F_float = ⟨8388608, 18⟩ := by decide
  have h3 : temp_out_scale_float = ⟨13421773, 27⟩ := by decide
  have h4 : float_add (float_mul ⟨217, 0⟩ WS_SCALE_C_TO_F_float) WS_OFFSET_C_TO_F_float =
      ⟨9313976, 17⟩ := by
    set_option maxRecDepth 100000 in decide
  rw [h4, h1, h2, h3]
  simp only [Binary.value]
  norm_num

/-- C8 fails as stated on the values the tables hold: the `float` member initialised with
`1.8 * 0.1` holds 3019899/16777216, not 0.18, and the one initialised with `0.1` holds
13421773/134217728, not 0.1 (here `18 / 10`, `1 / 10` are the literals `1.8`, `0.1`).  For the
raw value 217 the stored scale and offset give a value different from `1.8 * (217 * 0.1) + 32`
taken on the stored native scale and different from 71.06; evaluated in `float` arithmetic the
result is 1164247/16384 = 71.05999755859375. -/
theorem tempf_stored_float_not_exact :
    (18 : ℚ) / 10 = 1.8 ∧ (1 : ℚ) / 10 = 0.1 ∧ (32 : ℚ) / 1 = 32.0 ∧
    WS_SCALE_C_TO_F_float.value = 3019899 / 16777216 ∧
    WS_SCALE_C_TO_F_float.value ≠ WS_SCALE_C_TO_F ∧
    temp_out_scale_float.value = 13421773 / 134217728 ∧
    temp_out_scale_float.value ≠ 0.1 ∧
    WS_OFFSET_C_TO_F_float.value = WS_OFFSET_C_TO_F ∧
    (217 : ℚ) * WS_SCALE_C_TO_F_float.value + WS_OFFSET_C_TO_F_float.value ≠
      1.8 * ((217 : ℚ) * temp_out_scale_float.value) + 32 ∧
    (217 : ℚ) * WS_SCALE_C_TO_F_float.value + WS_OFFSET_C_TO_F_float.value ≠ 71.06 ∧
    (float_add (float_mul ⟨217, 0⟩ WS_SCALE_C_TO_F_float) WS_OFFSET_C_TO_F_float).value =
      1164247 / 16384 ∧
    (1164247 : ℚ) / 16384 ≠ 71.06 := by
  obtain ⟨h1, h2, h3, h4⟩ := stored_float_values
  rw [h1, h2, h3, h4]
  unfold WS_SCALE_C_TO_F WS_OFFSET_C_TO_F
  norm_num

/-- C8 as amended: in exact rational arithmetic, reading the decimal literals of the header as
exact rationals, the upload descriptor `tempf` reads the same bytes as the native `temp_out`
(offset 5, type `ss`) and its value `r * (1.8 * 0.1) + 32` is the Fahrenheit conversion
`1.8 * (r * 0.1) + 32` of the native Celsius value `r * 0.1`, the offset being added after
scaling; whenever `temp_out` decodes to a value `c`, `tempf` decodes to `1.8 * c + 32` in both
upload tables, and `dewptf` carries the scale and offset of `tempf`.  For `r = 217` the values
are 21.7 C and 71.06 F.  With the `float` values the members hold (scale 3019899/16777216,
offset 32) the upload value `r * scale + offset` agrees with `1.8 * (r * 0.1) + 32` within
0.001 for every signed 16-bit `r`. -/
theorem tempf_is_fahrenheit_in_exact_arithmetic :
    ws_field "temp_out" = some ⟨"temp_out", 5, ss, 0.1⟩ ∧
    wug_field "tempf" = some ⟨"tempf", 5, ss, WS_SCALE_C_TO_F, WS_OFFSET_C_TO_F⟩ ∧
    pws_field "tempf" = some ⟨"tempf", 5, ss, WS_SCALE_C_TO_F, WS_OFFSET_C_TO_F⟩ ∧
    wug_field "dewptf" = some ⟨"dewptf", 0, dp, WS_SCALE_C_TO_F, WS_OFFSET_C_TO_F⟩ ∧
    pws_field "dewptf" = some ⟨"dewptf", 0, dp, WS_SCALE_C_TO_F, WS_OFFSET_C_TO_F⟩ ∧
    WS_SCALE_C_TO_F = 1.8 * 0.1 ∧ WS_OFFSET_C_TO_F = 32 ∧
    (∀ r : ℤ, (r : ℚ) * WS_SCALE_C_TO_F + WS_OFFSET_C_TO_F = 1.8 * ((r : ℚ) * 0.1) + 32) ∧
    (∀ (slot : List Nat) (c : ℚ),
      decode_ws slot ⟨"temp_out", 5, ss, 0.1⟩ = Decoded.value c →
      decode_wug slot ⟨"tempf", 5, ss, WS_SCALE_C_TO_F, WS_OFFSET_C_TO_F⟩ =
        Decoded.value (1.8 * c + 32) ∧
      decode_pws slot ⟨"tempf", 5, ss, WS_SCALE_C_TO_F, WS_OFFSET_C_TO_F⟩ =
        Decoded.value (1.8 * c + 32)) ∧
    ((217 : ℤ) : ℚ) * 0.1 = 21.7 ∧
    ((217 : ℤ) : ℚ) * WS_SCALE_C_TO_F + WS_OFFSET_C_TO_F = 71.06 ∧
    decode_ws scenario_temp_out_217 ⟨"temp_out", 5, ss, 0.1⟩ = Decoded.value 21.7 ∧
    decode_wug scenario_temp_out_217 ⟨"tempf", 5, ss, WS_SCALE_C_TO_F, WS_OFFSET_C_TO_F⟩ =
      Decoded.value 71.06 ∧
    WS_SCALE_C_TO_F_float.value = 3019899 / 16777216 ∧
    WS_OFFSET_C_TO_F_float.value = 32 ∧
    (∀ r : ℤ, -32768 ≤ r → r ≤ 32767 →
      abs ((r : ℚ) * WS_SCALE_C_TO_F_float.value + WS_OFFSET_C_TO_F_float.value -
        (1.8 * ((r : ℚ) * 0.1) + 32)) < 1 / 1000) := by
  obtain ⟨hf1, hf2, _, _⟩ := stored_float_values
  have hconv : ∀ q : ℚ, q * WS_SCALE_C_TO_F + WS_OFFSET_C_TO_F = 1.8 * (q * 0.1) + 32 := by
    intro q
    unfold WS_SCALE_C_TO_F WS_OFFSET_C_TO_F
    ring
  have hdec : ∀ (slot : List Nat) (c : ℚ),
      decode_ws slot ⟨"temp_out", 5, ss, 0.1⟩ = Decoded.value c →
      CWS_decode (slot.drop 5) ss WS_SCALE_C_TO_F WS_OFFSET_C_TO_F =
        Decoded.value (1.8 * c + 32) := by
    intro slot c h
    unfold decode_ws at h
    simp only [signed_short_drop_cast] at h ⊢
    split_ifs at h ⊢ with hs
    simp only [Decoded.value.injEq, WS_OFFSET_DEFAULT] at h
    rw [hconv, ← h]
    norm_num
  refine ⟨rfl, rfl, rfl, rfl, rfl, rfl, by norm_num [WS_OFFSET_C_TO_F], fun r => hconv r,
    fun slot c h => ⟨hdec slot c h, hdec slot c h⟩, by norm_num,
    by norm_num [WS_SCALE_C_TO_F, WS_OFFSET_C_TO_F], ?_, ?_, hf1, hf2, ?_⟩
  · simp [decode_ws, CWS_decode, CWS_signed_short, CWS_unsigned_short, byte_at,
      scenario_temp_out_217, WS_OFFSET_DEFAULT]
    norm_num
  · simp [decode_wug, CWS_decode, CWS_signed_short, CWS_unsigned_short, byte_at,
      scenario_temp_out_217, WS_OFFSET_C_TO_F, WS_SCALE_C_TO_F]
    norm_num
  · intro r hlo hhi
    have h1 : (-32768 : ℚ) ≤ (r : ℚ) := by exact_mod_cast hlo
    have h2 : (r : ℚ) ≤ 32767 := by exact_mod_cast hhi
    rw [hf1, hf2, abs_lt]
    constructor <;> linarith

/-- C9: `pywws_format` decodes the wind direction byte (offset 12, type `ub`) with scale 1.0,
so a sector index `s` in 0..15 is reported as `s`, while `wug_format` and `pws_format` decode
the same byte (offset `WS_WIND_DIR` = 12, type `ub`) with scale 22.5 and offset 0, so that the
uploaded `winddir` is `s * 22.5`, which lies in `[0, 360)`. -/
theorem winddir_sector_to_degrees (slot : List Nat) (s : Nat) (hs : s ≤ 15)
    (hbyte : byte_at slot 12 = s) :
    pywws_field "wind_dir" = some ⟨"wind_dir", 12, ub, 1.0⟩ ∧
    wug_field "winddir" = some ⟨"winddir", 12, ub, 22.5, 0.0⟩ ∧
    pws_field "winddir" = some ⟨"winddir", 12, ub, 22.5, 0.0⟩ ∧
    WS_WIND_DIR = 12 ∧ WS_SCALE_OFFS_TO_DEGREE = 22.5 ∧ WS_OFFSET_DEFAULT = 0 ∧
    decode_pywws slot ⟨"wind_dir", 12, ub, 1.0⟩ = Decoded.value s ∧
    decode_wug slot ⟨"winddir", 12, ub, 22.5, 0.0⟩ = Decoded.value ((s : ℚ) * 22.5) ∧
    decode_pws slot ⟨"winddir", 12, ub, 22.5, 0.0⟩ = Decoded.value ((s : ℚ) * 22.5) ∧
    (0 : ℚ) ≤ (s : ℚ) * 22.5 ∧ (s : ℚ) * 22.5 < 360 := by
  have hne : ¬ s = 255 := by omega
  have hq : (s : ℚ) ≤ 15 := by exact_mod_cast hs
  have hq0 : (0 : ℚ) ≤ (s : ℚ) := by exact_mod_cast Nat.zero_le s
  refine ⟨rfl, rfl, rfl, rfl, rfl, by norm_num [WS_OFFSET_DEFAULT], ?_, ?_, ?_, ?_, ?_⟩
  · simp [decode_pywws, CWS_decode, byte_at_drop, hbyte, hne, WS_OFFSET_DEFAULT]
    norm_num
  · simp [decode_wug, CWS_decode, byte_at_drop, hbyte, hne]
    norm_num
  · simp [decode_pws, CWS_decode, byte_at_drop, hbyte, hne]
    norm_num
  · positivity
  · linarith

/-- The sector index 15 (north-north-west) is uploaded as 337.5 degrees. -/
theorem winddir_sector_15 :
    (15 : Nat) ≤ 15 ∧ byte_at (List.replicate 12 0 ++ [15, 0, 0, 0]) 12 = 15 ∧
    (pywws_field "wind_dir" = some ⟨"wind_dir", 12, ub, 1.0⟩ ∧
    wug_field "winddir" = some ⟨"winddir", 12, ub, 22.5, 0.0⟩ ∧
    pws_field "winddir" = some ⟨"winddir", 12, ub, 22.5, 0.0⟩ ∧
    WS_WIND_DIR = 12 ∧ WS_SCALE_OFFS_TO_DEGREE = 22.5 ∧ WS_OFFSET_DEFAULT = 0 ∧
    decode_pywws (List.replicate 12 0 ++ [15, 0, 0, 0]) ⟨"wind_dir", 12, ub, 1.0⟩ =
      Decoded.value (15 : Nat) ∧
    decode_wug (List.replicate 12 0 ++ [15, 0, 0, 0]) ⟨"winddir", 12, ub, 22.5, 0.0⟩ =
      Decoded.value (((15 : Nat) : ℚ) * 22.5) ∧
    decode_pws (List.replicate 12 0 ++ [15, 0, 0, 0]) ⟨"winddir", 12, ub, 22.5, 0.0⟩ =
      Decoded.value (((15 : Nat) : ℚ) * 22.5) ∧
    (0 : ℚ) ≤ ((15 : Nat) : ℚ) * 22.5 ∧ ((15 : Nat) : ℚ) * 22.5 < 360) :=
  ⟨by decide, by decide,
    winddir_sector_to_degrees (List.replicate 12 0 ++ [15, 0, 0, 0]) 15 (by decide) (by decide)⟩

/-- C10 fails as stated: in `pws_format` the last entry is `humidity` (type `ub`), not the
dew-point descriptor; `dewptf` is entry 7 and the outdoor humidity it depends on is entry 8. -/
theorem pws_dew_point_before_humidity :
    pws_format.getLast? = some ⟨"humidity", WS_HUMIDITY_OUT, ub, WS_SCALE_DEFAULT, WS_OFFSET_DEFAULT⟩ ∧
    (pws_format.map fun r => r.ws_type).getLast? ≠ some dp ∧
    (pws_format.map fun r => r.ws_type).indexOf dp = 7 ∧
    (pws_format.map fun r => r.name).indexOf "humidity" = 8 ∧
    ¬ ((pws_format.map fun r => r.name).indexOf "humidity" <
        (pws_format.map fun r => r.ws_type).indexOf dp) := by
  refine ⟨rfl, by decide, by decide, by decide, by decide⟩

set_option maxRecDepth 100000 in
/-- C10 as amended: only `wug_format` and `pws_format` contain a descriptor of type `dp`, each
exactly one.  In `wug_format` it is the last entry (entry 8 of 9) and comes after outdoor
temperature (`tempf`, offset 5, entry 4) and outdoor humidity (`humidity`, offset 4, entry 3).
In `pws_format` it is entry 7 of 9: it comes after `tempf` (entry 3) and before `humidity`,
which is the last entry (entry 8). -/
theorem dew_point_position :
    (ws_format.map fun r => r.ws_type).count dp = 0 ∧
    (pywws_format.map fun r => r.ws_type).count dp = 0 ∧
    (wug_format.map fun r => r.ws_type).count dp = 1 ∧
    (pws_format.map fun r => r.ws_type).count dp = 1 ∧
    wug_format.length = 9 ∧
    (wug_format.map fun r => r.ws_type).getLast? = some dp ∧
    (wug_format.map fun r => r.ws_type).indexOf dp = 8 ∧
    (wug_format.map fun r => r.name).indexOf "tempf" = 4 ∧
    (wug_format.map fun r => r.name).indexOf "humidity" = 3 ∧
    (wug_field "tempf").map (fun r => r.pos) = some 5 ∧
    (wug_field "humidity").map (fun r => r.pos) = some 4 ∧
    pws_format.length = 9 ∧
    (pws_format.map fun r => r.ws_type).indexOf dp = 7 ∧
    (pws_format.map fun r => r.name).indexOf "tempf" = 3 ∧
    (pws_format.map fun r => r.name).indexOf "humidity" = 8 ∧
    (pws_format.map fun r => r.name).getLast? = some "humidity" ∧
    (pws_field "tempf").map (fun r => r.pos) = some 5 ∧
    (pws_field "humidity").map (fun r => r.pos) = some 4 := by
  refine ⟨by decide, by decide, by decide, by decide, rfl, by decide, by decide, by decide,
    by decide, rfl, rfl, rfl, by decide, by decide, by decide, by decide, rfl, rfl⟩

/-! ## Wind speeds and sentinels -/

theorem shl8_or (h l : Nat) (hl : l < 256) : h <<< 8 ||| l = h * 256 + l := by
  have h1 := Nat.mul_add_lt_is_or (show l < 2 ^ 8 by omega) h
  rw [Nat.shiftLeft_eq, Nat.mul_comm h (2 ^ 8), ← h1]

theorem and_15 (b : Nat) : b &&& 0x0F = b % 16 :=
  Nat.and_pow_two_sub_one_eq_mod b 4

theorem shr_4 (b : Nat) : b >>> 4 = b / 16 :=
  Nat.shiftRight_eq_div_pow b 4

/-- C11: for every slot the wind average is decoded from
`((byte[11] & 0x0F) << 8) | byte[9]` and the wind gust from `((byte[11] >> 4) << 8) | byte[10]`;
both raw values lie in 0..4095, the average uses only bits 0-3 of byte 11 and the gust only
bits 4-7, and the field is invalid exactly when the low byte is `0xFF` and the high nibble is
`0xF` (raw `0xFFF`), for every scale and offset; otherwise it is `raw * scale + offset`.  The
descriptors carry scale 0.1 in `ws_format` and `2.2369363 * 0.1` in the upload tables. -/
theorem wind_speed_decode (slot : List Nat) (scale offset : ℚ) :
    ((byte_at slot 11 &&& 0x0F) <<< 8 ||| byte_at slot 9) ≤ 4095 ∧
    ((byte_at slot 11 >>> 4) <<< 8 ||| byte_at slot 10) ≤ 4095 ∧
    (((byte_at slot 11 &&& 0x0F) <<< 8 ||| byte_at slot 9) = 0xFFF ↔
      byte_at slot 9 = 0xFF ∧ byte_at slot 11 &&& 0x0F = 0xF) ∧
    (((byte_at slot 11 >>> 4) <<< 8 ||| byte_at slot 10) = 0xFFF ↔
      byte_at slot 10 = 0xFF ∧ byte_at slot 11 >>> 4 = 0xF) ∧
    CWS_decode (slot.drop 9) wa scale offset =
      (if ((byte_at slot 11 &&& 0x0F) <<< 8 ||| byte_at slot 9) = 0xFFF then Decoded.invalid
       else Decoded.value
        ((((byte_at slot 11 &&& 0x0F) <<< 8 ||| byte_at slot 9 : Nat) : ℚ) * scale + offset)) ∧
    CWS_decode (slot.drop 10) wg scale offset =
      (if ((byte_at slot 11 >>> 4) <<< 8 ||| byte_at slot 10) = 0xFFF then Decoded.invalid
       else Decoded.value
        ((((byte_at slot 11 >>> 4) <<< 8 ||| byte_at slot 10 : Nat) : ℚ) * scale + offset)) ∧
    (∀ other : List Nat, byte_at other 9 = byte_at slot 9 →
      byte_at other 11 &&& 0x0F = byte_at slot 11 &&& 0x0F →
      CWS_decode (other.drop 9) wa scale offset = CWS_decode (slot.drop 9) wa scale offset) ∧
    (∀ other : List Nat, byte_at other 10 = byte_at slot 10 →
      byte_at other 11 >>> 4 = byte_at slot 11 >>> 4 →
      CWS_decode (other.drop 10) wg scale offset = CWS_decode (slot.drop 10) wg scale offset) ∧
    ws_field "wind_ave" = some ⟨"wind_ave", 9, wa, 0.1⟩ ∧
    ws_field "wind_gust" = some ⟨"wind_gust", 10, wg, 0.1⟩ ∧
    wug_field "windspeedmph" = some ⟨"windspeedmph", 9, wa, 2.2369363 * 0.1, 0.0⟩ ∧
    wug_field "windgustmph" = some ⟨"windgustmph", 10, wg, 2.2369363 * 0.1, 0.0⟩ ∧
    pws_field "windspeedmph" = some ⟨"windspeedmph", 9, wa, 2.2369363 * 0.1, 0.0⟩ ∧
    pws_field "windgustmph" = some ⟨"windgustmph", 10, wg, 2.2369363 * 0.1, 0.0⟩ := by
  have h9 := byte_at_lt slot 9
  have h10 := byte_at_lt slot 10
  have h11 := byte_at_lt slot 11
  have hwa : ∀ raw : List Nat, CWS_decode (raw.drop 9) wa scale offset =
      (if ((byte_at raw 11 &&& 0x0F) <<< 8 ||| byte_at raw 9) = 0xFFF then Decoded.invalid
       else Decoded.value
        ((((byte_at raw 11 &&& 0x0F) <<< 8 ||| byte_at raw 9 : Nat) : ℚ) * scale + offset)) := by
    intro raw
    have r9 := byte_at_lt raw 9
    have r11 := byte_at_lt raw 11
    have hc : (byte_at raw 9 = 0xFF ∧ byte_at raw 11 % 16 = 0xF) ↔
        ((byte_at raw 11 &&& 0x0F) <<< 8 ||| byte_at raw 9) = 0xFFF := by
      rw [and_15, shl8_or _ _ r9]; omega
    simp only [CWS_decode, byte_at_drop, Nat.add_zero, Nat.reduceAdd, and_15] at hc ⊢
    by_cases hx : byte_at raw 9 = 0xFF ∧ byte_at raw 11 % 16 = 0xF
    · rw [if_pos hx, if_pos (hc.mp hx)]
    · rw [if_neg hx, if_neg (fun h => hx (hc.mpr h))]
  have hwg : ∀ raw : List Nat, CWS_decode (raw.drop 10) wg scale offset =
      (if ((byte_at raw 11 >>> 4) <<< 8 ||| byte_at raw 10) = 0xFFF then Decoded.invalid
       else Decoded.value
        ((((byte_at raw 11 >>> 4) <<< 8 ||| byte_at raw 10 : Nat) : ℚ) * scale + offset)) := by
    intro raw
    have r10 := byte_at_lt raw 10
    have r11 := byte_at_lt raw 11
    have hc : (byte_at raw 10 = 0xFF ∧ byte_at raw 11 / 16 = 0xF) ↔
        ((byte_at raw 11 >>> 4) <<< 8 ||| byte_at raw 10) = 0xFFF := by
      rw [shr_4, shl8_or _ _ r10]; omega
    simp only [CWS_decode, byte_at_drop, Nat.add_zero, Nat.reduceAdd, shr_4] at hc ⊢
    by_cases hx : byte_at raw 10 = 0xFF ∧ byte_at raw 11 / 16 = 0xF
    · rw [if_pos hx, if_pos (hc.mp hx)]
    · rw [if_neg hx, if_neg (fun h => hx (hc.mpr h))]
  refine ⟨?_, ?_, ?_, ?_, hwa slot, hwg slot, ?_, ?_, rfl, rfl, rfl, rfl, rfl, rfl⟩
  · rw [and_15, shl8_or _ _ h9]; omega
  · rw [shr_4, shl8_or _ _ h10]; omega
  · rw [and_15, shl8_or _ _ h9]; omega
  · rw [shr_4, shl8_or _ _ h10]; omega
  · intro other e9 e11
    rw [hwa other, hwa slot, e9, e11]
  · intro other e10 e11
    rw [hwg other, hwg slot, e10, e11]

/-- C12: for every scale and offset `CWS_decode` reports invalid for a byte type (`ub`, `sb`)
when the raw byte is `0xFF` and for a 16-bit type (`us`, `ss`) when the two raw bytes are
`0xFF 0xFF`; for every other raw value the result is `raw * scale + offset`, and it depends
only on the bytes of the field, the type tag, the scale and the offset. -/
theorem decode_sentinel_or_scaled (raw : List Nat) (scale offset : ℚ) :
    (byte_at raw 0 = 0xFF →
      CWS_decode raw ub scale offset = Decoded.invalid ∧
      CWS_decode raw sb scale offset = Decoded.invalid) ∧
    (byte_at raw 0 = 0xFF ∧ byte_at raw 1 = 0xFF →
      CWS_decode raw us scale offset = Decoded.invalid ∧
      CWS_decode raw ss scale offset = Decoded.invalid) ∧
    (byte_at raw 0 ≠ 0xFF →
      CWS_decode raw ub scale offset =
        Decoded.value ((byte_at raw 0 : ℚ) * scale + offset) ∧
      CWS_decode raw sb scale offset =
        Decoded.value (((if byte_at raw 0 < 0x80 then (byte_at raw 0 : Int)
          else (byte_at raw 0 : Int) - 0x100 : Int) : ℚ) * scale + offset)) ∧
    (¬ (byte_at raw 0 = 0xFF ∧ byte_at raw 1 = 0xFF) →
      CWS_decode raw us scale offset =
        Decoded.value (((byte_at raw 1 * 256 + byte_at raw 0 : Nat) : ℚ) * scale + offset) ∧
      CWS_decode raw ss scale offset =
        Decoded.value (((if byte_at raw 1 < 0x80
          then (byte_at raw 1 : Int) * 256 + (byte_at raw 0 : Int)
          else (byte_at raw 1 : Int) * 256 + (byte_at raw 0 : Int) - 0x10000 : Int) : ℚ)
            * scale + offset)) ∧
    (∀ other : List Nat, byte_at other 0 = byte_at raw 0 →
      CWS_decode other ub scale offset = CWS_decode raw ub scale offset ∧
      CWS_decode other sb scale offset = CWS_decode raw sb scale offset) ∧
    (∀ other : List Nat, byte_at other 0 = byte_at raw 0 → byte_at other 1 = byte_at raw 1 →
      CWS_decode other us scale offset = CWS_decode raw us scale offset ∧
      CWS_decode other ss scale offset = CWS_decode raw ss scale offset) := by
  have h0 := byte_at_lt raw 0
  have h1 := byte_at_lt raw 1
  have hs := unsigned_short_sentinel raw
  refine ⟨?_, ?_, ?_, ?_, ?_, ?_⟩
  · intro h
    simp [CWS_decode, h]
  · intro h
    simp [CWS_decode, hs.mpr h]
  · intro h
    constructor
    · simp [CWS_decode, h]
    · have hm : byte_at raw 0 % 256 = byte_at raw 0 := Nat.mod_eq_of_lt h0
      simp only [CWS_decode, signed_byte, hm, if_neg h]
  · intro h
    have hne : ¬ CWS_unsigned_short raw = 0xFFFF := fun e => h (hs.mp e)
    constructor
    · simp only [CWS_decode, if_neg hne]
      rfl
    · simp only [CWS_decode, if_neg hne, CWS_signed_short]
      have hlt : CWS_unsigned_short raw < 0x8000 ↔ byte_at raw 1 < 0x80 := by
        unfold CWS_unsigned_short; omega
      by_cases hb : byte_at raw 1 < 0x80
      · rw [if_pos (hlt.mpr hb), if_pos hb]
        unfold CWS_unsigned_short
        push_cast
        ring_nf
      · rw [if_neg (fun e => hb (hlt.mp e)), if_neg hb]
        unfold CWS_unsigned_short
        push_cast
        ring_nf
  · intro other e
    simp [CWS_decode, e]
  · intro other e0 e1
    simp [CWS_decode, CWS_signed_short, CWS_unsigned_short, e0, e1]

/-! ## The rain aggregator -/

theorem dec_ptr_is_slot (a : Nat) (ha : is_slot a) : is_slot (CWS_dec_ptr a) := by
  unfold is_slot WS_BUFFER_RECORD WS_BUFFER_END WS_BUFFER_START at *
  unfold CWS_dec_ptr WS_BUFFER_RECORD WS_BUFFER_END WS_BUFFER_START
  split_ifs <;> omega

theorem iterate_dec_ptr_is_slot (a : Nat) (ha : is_slot a) (n : Nat) :
    is_slot (Nat.iterate CWS_dec_ptr n a) := by
  induction n with
  | zero => exact ha
  | succ n ih =>
    rw [Function.iterate_succ_apply']
    exact dec_ptr_is_slot _ ih

theorem rain_walk_exits (m_buf : Nat → Nat) (data_count window current_pos : Nat) :
    ∀ (fuel : Nat) (s : RainWalk), s.steps ≤ data_count → data_count - s.steps ≤ fuel →
      s.pos = Nat.iterate CWS_dec_ptr s.steps current_pos →
      s.elapsed = elapsed_after m_buf current_pos s.steps →
      (∀ j, j < s.steps → elapsed_after m_buf current_pos j < window) →
      ∃ t, rain_walk m_buf data_count window fuel s = some t ∧
        t.steps ≤ data_count ∧
        t.pos = Nat.iterate CWS_dec_ptr t.steps current_pos ∧
        t.elapsed = elapsed_after m_buf current_pos t.steps ∧
        (∀ j, j < t.steps → elapsed_after m_buf current_pos j < window) ∧
        (window ≤ t.elapsed ∨ t.steps = data_count) ∧
        (s.valid = true →
          (∀ k, k ≤ data_count →
            rain_raw m_buf (Nat.iterate CWS_dec_ptr k current_pos) ≠ 0xFFFF) →
          t.valid = true) := by
  intro fuel
  induction fuel with
  | zero =>
    intro s hle hfuel hpos hel hbelow
    have hc : rain_walk_continue data_count window s = false := by
      simp only [rain_walk_continue, Bool.and_eq_false_iff, decide_eq_false_iff_not]
      left; omega
    exact ⟨s, by simp [rain_walk, hc], hle, hpos, hel, hbelow, Or.inr (by omega), fun h _ => h⟩
  | succ fuel ih =>
    intro s hle hfuel hpos hel hbelow
    by_cases hc : rain_walk_continue data_count window s = true
    · have hc2 := hc
      simp only [rain_walk_continue, Bool.and_eq_true, decide_eq_true_eq] at hc2
      have hstep : (rain_walk_step m_buf s).pos =
          Nat.iterate CWS_dec_ptr (rain_walk_step m_buf s).steps current_pos := by
        simp only [rain_walk_step]
        rw [Function.iterate_succ_apply', ← hpos]
      have hel2 : (rain_walk_step m_buf s).elapsed =
          elapsed_after m_buf current_pos (rain_walk_step m_buf s).steps := by
        simp only [rain_walk_step, elapsed_after]
        rw [← hel, ← hpos]
      have hbelow2 : ∀ j, j < (rain_walk_step m_buf s).steps →
          elapsed_after m_buf current_pos j < window := by
        intro j hj
        simp only [rain_walk_step] at hj
        by_cases hjs : j < s.steps
        · exact hbelow j hjs
        · have : j = s.steps := by omega
          rw [this, ← hel]
          exact hc2.2
      obtain ⟨t, ht, h2, h3, h4, h5, h6, h7⟩ :=
        ih (rain_walk_step m_buf s) (by simp only [rain_walk_step]; omega)
          (by simp only [rain_walk_step]; omega) hstep hel2 hbelow2
      simp only [rain_walk_step] at h7
      refine ⟨t, by simp [rain_walk, hc, ht], h2, h3, h4, h5, h6, ?_⟩
      intro hv hall
      apply h7 _ hall
      simp only [Bool.and_eq_true, decide_eq_true_eq]
      refine ⟨hv, ?_⟩
      have := hall (s.steps + 1) (by omega)
      rw [Function.iterate_succ_apply', ← hpos] at this
      exact this
    · have hc2 := hc
      simp only [rain_walk_continue, Bool.and_eq_true, decide_eq_true_eq, not_and_or] at hc2
      exact ⟨s, by simp [rain_walk, hc], hle, hpos, hel, hbelow, by omega, fun h _ => h⟩

theorem rain_walk_more_fuel (m_buf : Nat → Nat) (data_count window : Nat) :
    ∀ (g : Nat) (s v : RainWalk),
      rain_walk m_buf data_count window g s = some v →
      rain_walk m_buf data_count window (g + 1) s = some v := by
  intro g
  induction g with
  | zero =>
    intro s v h
    by_cases hc : rain_walk_continue data_count window s = true
    · simp [rain_walk, hc] at h
    · simpa [rain_walk, hc] using h
  | succ g ih =>
    intro s v h
    by_cases hc : rain_walk_continue data_count window s = true
    · have h1 : rain_walk m_buf data_count window g (rain_walk_step m_buf s) = some v := by
        simpa [rain_walk, hc] using h
      have h2 := ih _ _ h1
      rw [rain_walk, if_pos hc]
      exact h2
    · rw [rain_walk, if_neg hc] at h
      rw [rain_walk, if_neg hc]
      exact h

theorem elapsed_after_zero (m_buf : Nat → Nat) (current_pos : Nat)
    (hz : ∀ a, delay_raw m_buf a = 0) (k : Nat) : elapsed_after m_buf current_pos k = 0 := by
  induction k with
  | zero => rfl
  | succ k ih => simp [elapsed_after, ih, hz]

/-- C13: for every buffer content, every slot address `current_pos` and every `data_count`, the
backward traversal returns whenever it is given at least `data_count` loop iterations: it stops
after `steps` backward steps with `steps ≤ data_count`, each step being `CWS_dec_ptr`, so the
slot reached is a log slot; it stops at the first step count where the accumulated delay meets
the window or at `data_count`, and when all delays are 0 it stops after exactly `data_count`
steps. -/
theorem rain_walk_terminates (m_buf : Nat → Nat) (current_pos data_count window fuel : Nat)
    (hpos : is_slot current_pos) (hfuel : data_count ≤ fuel) :
    ∃ t, rain_walk m_buf data_count window fuel (rain_walk_init m_buf current_pos) = some t ∧
      rain_walk m_buf data_count window data_count (rain_walk_init m_buf current_pos) = some t ∧
      t.steps ≤ data_count ∧
      t.pos = Nat.iterate CWS_dec_ptr t.steps current_pos ∧
      is_slot t.pos ∧
      t.elapsed = elapsed_after m_buf current_pos t.steps ∧
      (∀ j, j < t.steps → elapsed_after m_buf current_pos j < window) ∧
      (window ≤ t.elapsed ∨ t.steps = data_count) ∧
      ((∀ a, delay_raw m_buf a = 0) → 0 < window → t.steps = data_count) := by
  obtain ⟨t, ht, h2, h3, h4, h5, h6, _⟩ :=
    rain_walk_exits m_buf data_count window current_pos fuel (rain_walk_init m_buf current_pos)
      (Nat.zero_le _) (by simpa [rain_walk_init] using hfuel) rfl rfl
      (fun j hj => absurd hj (Nat.not_lt_zero j))
  obtain ⟨u, hu, _, _, _, _, _, _⟩ :=
    rain_walk_exits m_buf data_count window current_pos data_count
      (rain_walk_init m_buf current_pos)
      (Nat.zero_le _) (by simp [rain_walk_init]) rfl rfl
      (fun j hj => absurd hj (Nat.not_lt_zero j))
  have hsame : u = t := by
    have hstable := rain_walk_more_fuel m_buf data_count window
    have hmore : ∀ d, rain_walk m_buf data_count window (data_count + d)
        (rain_walk_init m_buf current_pos) = some u := by
      intro d
      induction d with
      | zero => exact hu
      | succ d ih => exact hstable _ _ _ ih
    have := hmore (fuel - data_count)
    rw [Nat.add_sub_cancel' hfuel, ht] at this
    exact (Option.some.inj this).symm
  refine ⟨t, ht, hsame ▸ hu, h2, h3, ?_, h4, h5, h6, ?_⟩
  · rw [h3]
    exact iterate_dec_ptr_is_slot _ hpos _
  · intro hz hw
    rcases h6 with h6 | h6
    · rw [h4, elapsed_after_zero m_buf current_pos hz] at h6
      omega
    · exact h6

/-- A walk over a log whose delays are all zero: from `0x120` with `data_count = 5` the walk
takes exactly 5 backward steps, wrapping from `0x100` to `0xFFF0`. -/
theorem rain_walk_terminates_zero_log :
    is_slot 0x120 ∧ (5 : Nat) ≤ 7 ∧
    ∃ t, rain_walk zero_log 5 60 7 (rain_walk_init zero_log 0x120) = some t ∧
      rain_walk zero_log 5 60 5 (rain_walk_init zero_log 0x120) = some t ∧
      t.steps ≤ 5 ∧
      t.pos = Nat.iterate CWS_dec_ptr t.steps 0x120 ∧
      is_slot t.pos ∧
      t.elapsed = elapsed_after zero_log 0x120 t.steps ∧
      (∀ j, j < t.steps → elapsed_after zero_log 0x120 j < 60) ∧
      (60 ≤ t.elapsed ∨ t.steps = 5) ∧
      ((∀ a, delay_raw zero_log a = 0) → 0 < 60 → t.steps = 5) :=
  ⟨by decide, by decide,
    rain_walk_terminates zero_log 0x120 5 60 7 (by decide) (by decide)⟩

theorem read_unsigned_short_lt (m_buf : Nat → Nat) (addr : Nat) :
    read_unsigned_short m_buf addr < 0x10000 := by
  unfold read_unsigned_short CWS_unsigned_short
  have h0 := byte_at_lt [m_buf addr, m_buf (addr + 1)] 0
  have h1 := byte_at_lt [m_buf addr, m_buf (addr + 1)] 1
  omega

theorem read_store_same (m_buf : Nat → Nat) (addr v : Nat) (hv : v < 0x10000) :
    read_unsigned_short (store_unsigned_short m_buf addr v) addr = v := by
  simp only [read_unsigned_short, store_unsigned_short, CWS_unsigned_short, byte_at,
    List.getD_cons_zero, List.getD_cons_succ, if_true]
  have h1 : ¬ addr + 1 = addr := by omega
  simp only [h1, if_false, if_true]
  omega

theorem read_store_other (m_buf : Nat → Nat) (addr other v : Nat)
    (h : addr + 1 < other ∨ other + 1 < addr) :
    read_unsigned_short (store_unsigned_short m_buf other v) addr =
      read_unsigned_short m_buf addr := by
  have h1 : ¬ addr = other := by omega
  have h2 : ¬ addr = other + 1 := by omega
  have h3 : ¬ addr + 1 = other := by omega
  have h4 : ¬ addr + 1 = other + 1 := by omega
  simp only [read_unsigned_short, store_unsigned_short, h1, h2, h3, h4, if_false]

theorem rain_window_some (m_buf : Nat → Nat) (current_pos data_count window : Nat) :
    ∃ v, rain_window m_buf current_pos data_count window = some v ∧ v < 0x10000 := by
  obtain ⟨t, ht, _⟩ :=
    rain_walk_exits m_buf (data_count - 1) window current_pos (data_count - 1)
      (rain_walk_init m_buf current_pos)
      (Nat.zero_le _) (by simp [rain_walk_init]) rfl rfl
      (fun j hj => absurd hj (Nat.not_lt_zero j))
  refine ⟨rain_result m_buf current_pos t, by simp [rain_window, ht], ?_⟩
  unfold rain_result
  have := read_unsigned_short_lt m_buf (current_pos + WS_RAIN)
  split_ifs
  · unfold rain_raw; omega
  · decide

theorem rain_window_walk_capped (m_buf : Nat → Nat) (current_pos data_count window fuel : Nat)
    (hfuel : data_count ≤ fuel) :
    ∃ t, rain_walk m_buf (data_count - 1) window fuel (rain_walk_init m_buf current_pos) =
        some t ∧ t.steps ≤ data_count := by
  obtain ⟨t, ht, h2, _⟩ :=
    rain_walk_exits m_buf (data_count - 1) window current_pos fuel
      (rain_walk_init m_buf current_pos)
      (Nat.zero_le _) (by simp only [rain_walk_init]; omega) rfl rfl
      (fun j hj => absurd hj (Nat.not_lt_zero j))
  exact ⟨t, ht, by omega⟩

theorem elapsed_after_eq_sum (m_buf : Nat → Nat) (current_pos k : Nat) :
    elapsed_after m_buf current_pos k =
      ((List.range k).map fun i =>
        m_buf (Nat.iterate CWS_dec_ptr i current_pos + WS_DELAY) % 256).sum := by
  induction k with
  | zero => rfl
  | succ k ih =>
    rw [List.range_succ, List.map_append, List.sum_append, ← ih]
    simp [elapsed_after, delay_raw, read_byte, byte_at]

theorem rain_raw_eq_bytes (m_buf : Nat → Nat) (pos : Nat) :
    rain_raw m_buf pos =
      m_buf (pos + WS_RAIN + 1) % 256 * 256 + m_buf (pos + WS_RAIN) % 256 := by
  simp [rain_raw, read_unsigned_short, CWS_unsigned_short, byte_at]

theorem iterate_dec_ptr_address_of (i k : Nat) :
    Nat.iterate CWS_dec_ptr k (address_of i) = address_of (i + 4079 * k) := by
  induction k with
  | zero => rfl
  | succ k ih =>
    rw [Function.iterate_succ_apply', ih]
    unfold CWS_dec_ptr address_of WS_BUFFER_RECORD WS_BUFFER_END WS_BUFFER_START
    split_ifs <;> omega

theorem oldest_slot_full_log (current_pos : Nat) (h : is_slot current_pos) :
    oldest_slot current_pos 4080 = next_slot current_pos := by
  obtain ⟨i, hi, rfl⟩ := (is_slot_iff current_pos).mp h
  unfold oldest_slot
  rw [iterate_dec_ptr_address_of]
  unfold next_slot address_of WS_BUFFER_RECORD WS_BUFFER_END WS_BUFFER_START
  split_ifs <;> omega

/-- C14: when every available slot has a valid rain reading, the rainfall of every window (so
of each of the hour, day, week and month windows) is `max(0, R0 - R_boundary)`, where `R0` is
the rain counter (offset 13, `us`) of the current slot and `R_boundary` that of the slot where
the walk stopped: the first slot at which the sum of the `delay` bytes of the slots left behind
meets the window, or the oldest available slot (`data_count - 1` steps back, which for a full
log of 4080 entries is the slot after the current one) when the history is exhausted.  The
result fits 16 bits, is read back unchanged from the field it is stored in, and
`CWS_calculate_rain` stores the four windows at `WS_RAIN_HOUR`, `WS_RAIN_DAY`, `WS_RAIN_WEEK`
and `WS_RAIN_MONTH`. -/
theorem rain_window_clamped_delta (m_buf : Nat → Nat)
    (current_pos data_count window month_minutes : Nat)
    (hvalid : ∀ k, k ≤ data_count - 1 →
      rain_raw m_buf (Nat.iterate CWS_dec_ptr k current_pos) ≠ 0xFFFF) :
    ∃ t v, rain_walk m_buf (data_count - 1) window (data_count - 1)
        (rain_walk_init m_buf current_pos) = some t ∧
      t.steps ≤ data_count - 1 ∧
      t.pos = Nat.iterate CWS_dec_ptr t.steps current_pos ∧
      t.elapsed = ((List.range t.steps).map fun i =>
        m_buf (Nat.iterate CWS_dec_ptr i current_pos + WS_DELAY) % 256).sum ∧
      (∀ j, j < t.steps → ((List.range j).map fun i =>
        m_buf (Nat.iterate CWS_dec_ptr i current_pos + WS_DELAY) % 256).sum < window) ∧
      (window ≤ t.elapsed ∨ t.pos = oldest_slot current_pos data_count) ∧
      (is_slot current_pos → data_count = 4080 →
        oldest_slot current_pos data_count = next_slot current_pos) ∧
      rain_window m_buf current_pos data_count window = some v ∧
      (v : Int) = max 0 ((rain_raw m_buf current_pos : Int) - (rain_raw m_buf t.pos : Int)) ∧
      (∀ p, rain_raw m_buf p =
        m_buf (p + WS_RAIN + 1) % 256 * 256 + m_buf (p + WS_RAIN) % 256) ∧
      v < 0x10000 ∧
      (∀ addr, read_unsigned_short (store_unsigned_short m_buf addr v) addr = v) ∧
      ∃ stored, CWS_calculate_rain m_buf current_pos data_count month_minutes = some stored ∧
        some (read_unsigned_short stored WS_RAIN_HOUR) =
          rain_window m_buf current_pos data_count WINDOW_HOUR ∧
        some (read_unsigned_short stored WS_RAIN_DAY) =
          rain_window m_buf current_pos data_count WINDOW_DAY ∧
        some (read_unsigned_short stored WS_RAIN_WEEK) =
          rain_window m_buf current_pos data_count WINDOW_WEEK ∧
        some (read_unsigned_short stored WS_RAIN_MONTH) =
          rain_window m_buf current_pos data_count month_minutes := by
  obtain ⟨t, ht, h2, h3, h4, h5, h6, h7⟩ :=
    rain_walk_exits m_buf (data_count - 1) window current_pos (data_count - 1)
      (rain_walk_init m_buf current_pos)
      (Nat.zero_le _) (by simp [rain_walk_init]) rfl rfl
      (fun j hj => absurd hj (Nat.not_lt_zero j))
  have hv0 : (rain_walk_init m_buf current_pos).valid = true := by
    simp only [rain_walk_init, decide_eq_true_eq]
    exact hvalid 0 (Nat.zero_le _)
  have htv := h7 hv0 hvalid
  have hR0 := read_unsigned_short_lt m_buf (current_pos + WS_RAIN)
  have hres : rain_result m_buf current_pos t =
      rain_raw m_buf current_pos - rain_raw m_buf t.pos := by
    simp [rain_result, htv]
  have hlt : rain_result m_buf current_pos t < 0x10000 := by
    rw [hres]; unfold rain_raw; omega
  obtain ⟨vh, hh, hhlt⟩ := rain_window_some m_buf current_pos data_count WINDOW_HOUR
  obtain ⟨vd, hd, hdlt⟩ := rain_window_some m_buf current_pos data_count WINDOW_DAY
  obtain ⟨vw, hw, hwlt⟩ := rain_window_some m_buf current_pos data_count WINDOW_WEEK
  obtain ⟨vm, hm, hmlt⟩ := rain_window_some m_buf current_pos data_count month_minutes
  refine ⟨t, rain_result m_buf current_pos t, ht, h2, h3, ?_, ?_, ?_, ?_,
    by simp [rain_window, ht], ?_, rain_raw_eq_bytes m_buf, hlt,
    fun addr => read_store_same m_buf addr _ hlt, ?_⟩
  · rw [h4, elapsed_after_eq_sum]
  · intro j hj
    rw [← elapsed_after_eq_sum]
    exact h5 j hj
  · rcases h6 with h6 | h6
    · exact Or.inl h6
    · right
      rw [h3, h6, oldest_slot]
  · intro hs hd4
    rw [hd4]
    exact oldest_slot_full_log current_pos hs
  · rw [hres]
    omega
  · refine ⟨store_unsigned_short (store_unsigned_short (store_unsigned_short
      (store_unsigned_short m_buf WS_RAIN_HOUR vh) WS_RAIN_DAY vd) WS_RAIN_WEEK vw)
      WS_RAIN_MONTH vm, by simp only [CWS_calculate_rain, hh, hd, hw, hm], ?_, ?_, ?_, ?_⟩
    · rw [hh, read_store_other _ _ _ _ (by decide), read_store_other _ _ _ _ (by decide),
        read_store_other _ _ _ _ (by decide), read_store_same _ _ _ hhlt]
    · rw [hd, read_store_other _ _ _ _ (by decide), read_store_other _ _ _ _ (by decide),
        read_store_same _ _ _ hdlt]
    · rw [hw, read_store_other _ _ _ _ (by decide), read_store_same _ _ _ hwlt]
    · rw [hm, read_store_same _ _ _ hmlt]

/-- A log of four readings, 30 minutes apart, with rain counters 10, 25, 40 and 60.  The hour
window is met after two backward steps (60 minutes), at the slot `0x110`, so the hourly rain is
60 - 25 = 35; the day, week and month windows exhaust the history and take the oldest slot
`0x100`, giving 60 - 10 = 50. -/
theorem rain_window_four_reading_log :
    (∀ k, k ≤ 4 - 1 → rain_raw four_reading_log (Nat.iterate CWS_dec_ptr k 0x130) ≠ 0xFFFF) ∧
    rain_walk four_reading_log (4 - 1) 60 (4 - 1) (rain_walk_init four_reading_log 0x130) =
      some ⟨0x110, 60, 2, true⟩ ∧
    rain_window four_reading_log 0x130 4 60 = some 35 ∧
    rain_walk four_reading_log (4 - 1) 1440 (4 - 1) (rain_walk_init four_reading_log 0x130) =
      some ⟨0x100, 90, 3, true⟩ ∧
    rain_window four_reading_log 0x130 4 1440 = some 50 ∧
    oldest_slot 0x130 4 = 0x100 ∧
    ((CWS_calculate_rain four_reading_log 0x130 4 43200).map fun stored =>
      (List.range 16).map stored) =
        some [0, 0, 0, 0, 0, 0, 0, 0, 35, 0, 50, 0, 50, 0, 50, 0] ∧
    ∃ t v, rain_walk four_reading_log (4 - 1) 60 (4 - 1)
        (rain_walk_init four_reading_log 0x130) = some t ∧
      t.steps ≤ 4 - 1 ∧
      t.pos = Nat.iterate CWS_dec_ptr t.steps 0x130 ∧
      t.elapsed = ((List.range t.steps).map fun i =>
        four_reading_log (Nat.iterate CWS_dec_ptr i 0x130 + WS_DELAY) % 256).sum ∧
      (∀ j, j < t.steps → ((List.range j).map fun i =>
        four_reading_log (Nat.iterate CWS_dec_ptr i 0x130 + WS_DELAY) % 256).sum < 60) ∧
      (60 ≤ t.elapsed ∨ t.pos = oldest_slot 0x130 4) ∧
      (is_slot 0x130 → 4 = 4080 → oldest_slot 0x130 4 = next_slot 0x130) ∧
      rain_window four_reading_log 0x130 4 60 = some v ∧
      (v : Int) = max 0 ((rain_raw four_reading_log 0x130 : Int) -
        (rain_raw four_reading_log t.pos : Int)) ∧
      (∀ p, rain_raw four_reading_log p =
        four_reading_log (p + WS_RAIN + 1) % 256 * 256 +
          four_reading_log (p + WS_RAIN) % 256) ∧
      v < 0x10000 ∧
      (∀ addr, read_unsigned_short (store_unsigned_short four_reading_log addr v) addr = v) ∧
      ∃ stored, CWS_calculate_rain four_reading_log 0x130 4 43200 = some stored ∧
        some (read_unsigned_short stored WS_RAIN_HOUR) =
          rain_window four_reading_log 0x130 4 WINDOW_HOUR ∧
        some (read_unsigned_short stored WS_RAIN_DAY) =
          rain_window four_reading_log 0x130 4 WINDOW_DAY ∧
        some (read_unsigned_short stored WS_RAIN_WEEK) =
          rain_window four_reading_log 0x130 4 WINDOW_WEEK ∧
        some (read_unsigned_short stored WS_RAIN_MONTH) =
          rain_window four_reading_log 0x130 4 43200 :=
  have hv : ∀ k, k ≤ 4 - 1 →
      rain_raw four_reading_log (Nat.iterate CWS_dec_ptr k 0x130) ≠ 0xFFFF := by decide
  ⟨hv, by decide, by decide, by decide, by decide, by decide, by decide,
    rain_window_clamped_delta four_reading_log 0x130 4 60 43200 hv⟩

/-! ## Layout of the tables -/

theorem decode_reach (raw other : List Nat) (t : ws_types) (scale offset : ℚ)
    (h : ∀ i, i < reach t → byte_at other i = byte_at raw i) :
    CWS_decode other t scale offset = CWS_decode raw t scale offset := by
  cases t <;>
    simp [CWS_decode, CWS_signed_short, CWS_unsigned_short, h, reach]

set_option maxRecDepth 100000 in
/-- C15: every descriptor lies inside its region.  With the widths 1 (`ub`, `sb`, `pb`, `wa`,
`wg`), 2 (`us`, `ss`, `tt`) and 5 (`dt`), each log record descriptor (the first 11 entries of
`ws_format`, all of `pywws_format`, the stored non-rain entries of the upload tables) has
`pos + width ≤ 16`, the shared wind high-bits byte is byte 11, below 16, and each fixed block
descriptor has `pos + width ≤ 256`; the bytes the decoder reads for a descriptor (`reach`)
stay inside the region too, and the decoded result depends on no other byte. -/
theorem descriptors_inside_region :
    (ws_extents.take 11).all (fun e => decide (e.region = Region.record)) = true ∧
    (ws_extents.drop 11).all (fun e => decide (e.region = Region.fixed)) = true ∧
    (∀ e ∈ ws_extents ++ pywws_extents ++ wug_extents ++ pws_extents,
      e.region = Region.record →
        e.pos + width e.ws_type ≤ 16 ∧ e.pos + reach e.ws_type ≤ 16) ∧
    (∀ e ∈ ws_extents ++ pywws_extents ++ wug_extents ++ pws_extents,
      e.region = Region.fixed →
        e.pos + width e.ws_type ≤ 256 ∧ e.pos + reach e.ws_type ≤ 256) ∧
    (∀ e ∈ pywws_extents, e.region = Region.record) ∧
    (∀ e ∈ wug_extents ++ pws_extents, e.region = Region.fixed →
      e.pos = WS_RAIN_HOUR ∨ e.pos = WS_RAIN_DAY) ∧
    (∀ e ∈ ws_extents ++ pywws_extents ++ wug_extents ++ pws_extents,
      ∀ p, high_bits_pos e.pos e.ws_type = some p →
        e.region = Region.record ∧ p = 11 ∧ p < 16) ∧
    (∀ (raw other : List Nat) (t : ws_types) (scale offset : ℚ),
      (∀ i, i < reach t → byte_at other i = byte_at raw i) →
      CWS_decode other t scale offset = CWS_decode raw t scale offset) := by
  refine ⟨by decide, by decide, by decide, by decide, by decide, by decide, by decide,
    decode_reach⟩

set_option maxRecDepth 100000 in
/-- C16: the schemas differ only in scale, offset and subset: every stored (non dew-point)
descriptor of `pywws_format`, `wug_format` and `pws_format` has a `ws_format` descriptor of the
same region with the same `pos` and type tag, and `pywws_format` agrees entry for entry with
the first 11 entries of `ws_format` on name, `pos` and type tag. -/
theorem schemas_share_positions_and_types :
    (∀ e ∈ pywws_extents, e.ws_type ≠ dp → e ∈ ws_extents) ∧
    (∀ e ∈ wug_extents, e.ws_type ≠ dp → e ∈ ws_extents) ∧
    (∀ e ∈ pws_extents, e.ws_type ≠ dp → e ∈ ws_extents) ∧
    pywws_format.length = 11 ∧
    (pywws_format.map fun r => (r.name, r.pos, r.ws_type)) =
      ((ws_format.take 11).map fun r => (r.name, r.pos, r.ws_type)) ∧
    pywws_extents = ws_extents.take 11 := by
  refine ⟨by decide, by decide, by decide, rfl, by decide, by decide⟩

set_option maxRecDepth 100000 in
/-- C17: the four calculated rain windows sit at `WS_RAIN_HOUR` = 0x08, `WS_RAIN_DAY` = 0x0A,
`WS_RAIN_WEEK` = 0x0C and `WS_RAIN_MONTH` = 0x0E, each a two-byte `us` field; they are pairwise
disjoint, lie within bytes 8..15 of the fixed block, and overlap no station-stored fixed block
descriptor of `ws_format`, all of which start at `pos ≥ 16`. -/
theorem rain_windows_apart_from_station_data :
    WS_RAIN_HOUR = 0x08 ∧ WS_RAIN_DAY = 0x0A ∧ WS_RAIN_WEEK = 0x0C ∧ WS_RAIN_MONTH = 0x0E ∧
    (ws_format_rain.map fun r => (r.name, r.pos, r.ws_type)) =
      [("rain.hour", WS_RAIN_HOUR, us), ("rain.day", WS_RAIN_DAY, us),
       ("rain.week", WS_RAIN_WEEK, us), ("rain.month", WS_RAIN_MONTH, us)] ∧
    ws_format.drop 11 = ws_format_stored_fixed ++ ws_format_rain ∧
    disjoint_ranges (ws_format_rain.map fun r => ⟨Region.fixed, r.pos, r.ws_type⟩) ∧
    (∀ r ∈ ws_format_rain, 8 ≤ r.pos ∧ r.pos + width r.ws_type ≤ 16) ∧
    (∀ s ∈ ws_format_stored_fixed, 16 ≤ s.pos) ∧
    (∀ r ∈ ws_format_rain, ∀ s ∈ ws_format_stored_fixed,
      overlaps ⟨Region.fixed, r.pos, r.ws_type⟩ ⟨Region.fixed, s.pos, s.ws_type⟩ = false) := by
  refine ⟨rfl, rfl, rfl, rfl, by decide, rfl, by decide, by decide, by decide, by decide⟩

/-- C18: `pws_format` holds the descriptors of `wug_format` in another order: as lists of
(name, pos, type, scale, offset) the two tables are permutations of each other, every key has
the same descriptor in both, and therefore decodes to the same value on the same raw data. -/
theorem pws_format_perm_wug_format :
    (pws_format.map fun r => (r.name, r.pos, r.ws_type, r.scale, r.offset)).Perm
      (wug_format.map fun r => (r.name, r.pos, r.ws_type, r.scale, r.offset)) ∧
    (∀ name : String,
      (pws_field name).map (fun r => (r.name, r.pos, r.ws_type, r.scale, r.offset)) =
      (wug_field name).map (fun r => (r.name, r.pos, r.ws_type, r.scale, r.offset))) ∧
    (∀ (w : wug_record) (p : pws_record), p.pos = w.pos → p.ws_type = w.ws_type →
      p.scale = w.scale → p.offset = w.offset →
      ∀ region : List Nat, decode_pws region p = decode_wug region w) := by
  refine ⟨?_, ?_, ?_⟩
  · have h : (pws_format.map fun r => (r.name, r.pos, r.ws_type, r.scale, r.offset)) =
        ((wug_format.map fun r => (r.name, r.pos, r.ws_type, r.scale, r.offset)).take 3 ++
          (wug_format.map fun r => (r.name, r.pos, r.ws_type, r.scale, r.offset)).drop 4) ++
        [("humidity", WS_HUMIDITY_OUT, ub, WS_SCALE_DEFAULT, WS_OFFSET_DEFAULT)] := rfl
    rw [h]
    simp only [wug_format, List.map, List.take, List.drop, List.cons_append, List.nil_append]
    refine List.Perm.cons _ (List.Perm.cons _ (List.Perm.cons _ ?_))
    exact List.perm_append_singleton
      ("humidity", WS_HUMIDITY_OUT, ub, WS_SCALE_DEFAULT, WS_OFFSET_DEFAULT)
      [("tempf", WS_TEMPERATURE_OUT, ss, WS_SCALE_C_TO_F, WS_OFFSET_C_TO_F),
       ("rainin", WS_RAIN_HOUR, us, WS_SCALE_CM_TO_IN, WS_OFFSET_DEFAULT),
       ("dailyrainin", WS_RAIN_DAY, us, WS_SCALE_CM_TO_IN, WS_OFFSET_DEFAULT),
       ("baromin", WS_ABS_PRESSURE, us, WS_SCALE_HPA_TO_INHG, WS_OFFSET_DEFAULT),
       ("dewptf", 0, dp, WS_SCALE_C_TO_F, WS_OFFSET_C_TO_F)]
  · intro name
    simp only [pws_field, wug_field, pws_format, wug_format, List.find?]
    by_cases h1 : name = "winddir"
    · subst h1; rfl
    by_cases h2 : name = "windspeedmph"
    · subst h2; rfl
    by_cases h3 : name = "windgustmph"
    · subst h3; rfl
    by_cases h4 : name = "humidity"
    · subst h4; rfl
    by_cases h5 : name = "tempf"
    · subst h5; rfl
    by_cases h6 : name = "rainin"
    · subst h6; rfl
    by_cases h7 : name = "dailyrainin"
    · subst h7; rfl
    by_cases h8 : name = "baromin"
    · subst h8; rfl
    by_cases h9 : name = "dewptf"
    · subst h9; rfl
    have e1 : ¬ "winddir" = name := fun h => h1 h.symm
    have e2 : ¬ "windspeedmph" = name := fun h => h2 h.symm
    have e3 : ¬ "windgustmph" = name := fun h => h3 h.symm
    have e4 : ¬ "humidity" = name := fun h => h4 h.symm
    have e5 : ¬ "tempf" = name := fun h => h5 h.symm
    have e6 : ¬ "rainin" = name := fun h => h6 h.symm
    have e7 : ¬ "dailyrainin" = name := fun h => h7 h.symm
    have e8 : ¬ "baromin" = name := fun h => h8 h.symm
    have e9 : ¬ "dewptf" = name := fun h => h9 h.symm
    simp [e1, e2, e3, e4, e5, e6, e7, e8, e9]
  · intro w p h1 h2 h3 h4 region
    simp only [decode_pws, decode_wug, h1, h2, h3, h4]

/-- C19: each position macro equals the `pos` of the `ws_format` descriptor of its quantity
(for `WS_ABS_PRESSURE` the log record entry, which is the first of that name), so the upload
descriptors, written with the macros, read the same bytes as the native descriptors. -/
theorem position_macros_match_ws_format :
    (ws_field "delay").map (fun r => r.pos) = some WS_DELAY ∧
    (ws_field "hum_in").map (fun r => r.pos) = some WS_HUMIDITY_IN ∧
    (ws_field "temp_in").map (fun r => r.pos) = some WS_TEMPERATURE_IN ∧
    (ws_field "hum_out").map (fun r => r.pos) = some WS_HUMIDITY_OUT ∧
    (ws_field "temp_out").map (fun r => r.pos) = some WS_TEMPERATURE_OUT ∧
    (ws_field "abs_pressure").map (fun r => r.pos) = some WS_ABS_PRESSURE ∧
    ws_format.get? 5 = ws_field "abs_pressure" ∧
    (ws_field "wind_ave").map (fun r => r.pos) = some WS_WIND_AVE ∧
    (ws_field "wind_gust").map (fun r => r.pos) = some WS_WIND_GUST ∧
    (ws_field "wind_dir").map (fun r => r.pos) = some WS_WIND_DIR ∧
    (ws_field "rain").map (fun r => r.pos) = some WS_RAIN ∧
    (ws_field "status").map (fun r => r.pos) = some WS_STATUS ∧
    (ws_field "data_count").map (fun r => r.pos) = some WS_DATA_COUNT ∧
    (ws_field "current_pos").map (fun r => r.pos) = some WS_CURRENT_POS ∧
    (wug_format.map fun r => (r.name, some r.pos, r.ws_type)) =
      [("winddir", (ws_field "wind_dir").map (fun r => r.pos), ub),
       ("windspeedmph", (ws_field "wind_ave").map (fun r => r.pos), wa),
       ("windgustmph", (ws_field "wind_gust").map (fun r => r.pos), wg),
       ("humidity", (ws_field "hum_out").map (fun r => r.pos), ub),
       ("tempf", (ws_field "temp_out").map (fun r => r.pos), ss),
       ("rainin", (ws_field "rain.hour").map (fun r => r.pos), us),
       ("dailyrainin", (ws_field "rain.day").map (fun r => r.pos), us),
       ("baromin", (ws_field "abs_pressure").map (fun r => r.pos), us),
       ("dewptf", some 0, dp)] := by
  refine ⟨rfl, rfl, rfl, rfl, rfl, rfl, rfl, rfl, rfl, rfl, rfl, rfl, rfl, rfl, rfl⟩

/-- C20: in both upload tables `rainin` has the `pos` and type of `rain.hour`
(`WS_RAIN_HOUR`, `us`) and `dailyrainin` those of `rain.day` (`WS_RAIN_DAY`, `us`); for every
raw count `r` the uploaded value `r * (0.39370079 * 0.1 * 0.3)` is the native millimetre value
`r * 0.3` times 0.039370079, in exact rational arithmetic, and whenever the native field
decodes to a value the upload field decodes to that value times 0.039370079. -/
theorem rainin_is_rain_hour_in_inches :
    ws_field "rain.hour" = some ⟨"rain.hour", WS_RAIN_HOUR, us, 0.3⟩ ∧
    ws_field "rain.day" = some ⟨"rain.day", WS_RAIN_DAY, us, 0.3⟩ ∧
    wug_field "rainin" = some ⟨"rainin", WS_RAIN_HOUR, us, WS_SCALE_CM_TO_IN, 0.0⟩ ∧
    pws_field "rainin" = some ⟨"rainin", WS_RAIN_HOUR, us, WS_SCALE_CM_TO_IN, 0.0⟩ ∧
    wug_field "dailyrainin" = some ⟨"dailyrainin", WS_RAIN_DAY, us, WS_SCALE_CM_TO_IN, 0.0⟩ ∧
    pws_field "dailyrainin" = some ⟨"dailyrainin", WS_RAIN_DAY, us, WS_SCALE_CM_TO_IN, 0.0⟩ ∧
    WS_SCALE_CM_TO_IN = 0.39370079 * 0.1 * 0.3 ∧
    (∀ r : Nat, (r : ℚ) * WS_SCALE_CM_TO_IN + WS_OFFSET_DEFAULT =
      ((r : ℚ) * 0.3) * 0.039370079) ∧
    (∀ (fixed : List Nat) (pos : Nat) (mm : ℚ) (native upload : String),
      decode_ws fixed ⟨native, pos, us, 0.3⟩ = Decoded.value mm →
      decode_wug fixed ⟨upload, pos, us, WS_SCALE_CM_TO_IN, 0.0⟩ =
        Decoded.value (mm * 0.039370079) ∧
      decode_pws fixed ⟨upload, pos, us, WS_SCALE_CM_TO_IN, 0.0⟩ =
        Decoded.value (mm * 0.039370079)) := by
  have hconv : ∀ q : ℚ, q * WS_SCALE_CM_TO_IN + 0.0 = (q * 0.3) * 0.039370079 := by
    intro q
    unfold WS_SCALE_CM_TO_IN
    ring
  have hdec : ∀ (fixed : List Nat) (pos : Nat) (mm : ℚ) (native : String),
      decode_ws fixed ⟨native, pos, us, 0.3⟩ = Decoded.value mm →
      CWS_decode (fixed.drop pos) us WS_SCALE_CM_TO_IN 0.0 =
        Decoded.value (mm * 0.039370079) := by
    intro fixed pos mm native h
    simp only [decode_ws, CWS_decode, WS_OFFSET_DEFAULT] at h ⊢
    split_ifs at h ⊢ with hs
    simp only [Decoded.value.injEq] at h
    rw [hconv, ← h]
    norm_num
  refine ⟨rfl, rfl, rfl, rfl, rfl, rfl, rfl, fun r => hconv r, ?_⟩
  intro fixed pos mm native upload h
  exact ⟨hdec fixed pos mm native h, hdec fixed pos mm native h⟩

/-! ## Names as C strings -/

theorem takeWhile_nonzero_append (l rest : List Nat) (h : ∀ b ∈ l, b ≠ 0) :
    (l ++ 0 :: rest).takeWhile (fun b => b != 0) = l := by
  induction l with
  | nil => simp
  | cons b l ih =>
    have hb : b ≠ 0 := h b (List.mem_cons_self b l)
    have hl : ∀ c ∈ l, c ≠ 0 := fun c hc => h c (List.mem_cons_of_mem b hc)
    have hbne : (b != 0) = true := by simpa using hb
    rw [List.cons_append, List.takeWhile_cons, hbne, if_pos rfl, ih hl]

theorem char_array_of_fits (size : Nat) (literal : String)
    (h : fits_with_nul size literal = true) :
    literal.length + 1 ≤ size ∧
    ∃ a, char_array size literal = some a ∧ a.length = size ∧
      a.getD literal.length 1 = 0 ∧
      c_string a = some (literal.data.map Char.toNat) := by
  simp only [fits_with_nul, Bool.and_eq_true, decide_eq_true_eq, List.all_eq_true] at h
  obtain ⟨hlen, hchars⟩ := h
  have hle : literal.length ≤ size := by omega
  have hdata : literal.data.length = literal.length := rfl
  obtain ⟨n, hn⟩ : ∃ n, size - literal.length = n + 1 := ⟨size - literal.length - 1, by omega⟩
  have hnz : ∀ b ∈ literal.data.map Char.toNat, b ≠ 0 := by
    intro b hb
    obtain ⟨c, hc, rfl⟩ := List.mem_map.mp hb
    have := (hchars c hc).1
    omega
  refine ⟨hlen, literal.data.map Char.toNat ++ List.replicate (size - literal.length) 0,
    by simp [char_array, hle], ?_, ?_, ?_⟩
  · simp only [List.length_append, List.length_map, List.length_replicate, hdata]
    omega
  · rw [hn, List.replicate_succ, List.getD_eq_getElem?_getD,
      List.getElem?_append_right (by simp [hdata])]
    simp [hdata]
  · rw [hn, List.replicate_succ]
    unfold c_string
    rw [if_pos (by simp), takeWhile_nonzero_append _ _ hnz]

set_option maxRecDepth 100000 in
/-- C21: every descriptor name fits its fixed-size name array with a terminating NUL: each name
of `ws_format` and `pywws_format` has at most 21 characters (`char name[22]`) and each name of
`wug_format` and `pws_format` at most 12 (`char name[13]`), so the initialised array has the
declared size, holds a NUL right after the name, and the C string it holds is the name.  The
longest names have exactly 21 and 12 characters. -/
theorem names_fit_name_arrays :
    WS_NAME_SIZE = 22 ∧ UPLOAD_NAME_SIZE = 13 ∧
    (∀ r ∈ ws_format, r.name.length ≤ 21 ∧
      ∃ a, char_array WS_NAME_SIZE r.name = some a ∧ a.length = WS_NAME_SIZE ∧
        a.getD r.name.length 1 = 0 ∧ c_string a = some (r.name.data.map Char.toNat)) ∧
    (∀ r ∈ pywws_format, r.name.length ≤ 21 ∧
      ∃ a, char_array WS_NAME_SIZE r.name = some a ∧ a.length = WS_NAME_SIZE ∧
        a.getD r.name.length 1 = 0 ∧ c_string a = some (r.name.data.map Char.toNat)) ∧
    (∀ r ∈ wug_format, r.name.length ≤ 12 ∧
      ∃ a, char_array UPLOAD_NAME_SIZE r.name = some a ∧ a.length = UPLOAD_NAME_SIZE ∧
        a.getD r.name.length 1 = 0 ∧ c_string a = some (r.name.data.map Char.toNat)) ∧
    (∀ r ∈ pws_format, r.name.length ≤ 12 ∧
      ∃ a, char_array UPLOAD_NAME_SIZE r.name = some a ∧ a.length = UPLOAD_NAME_SIZE ∧
        a.getD r.name.length 1 = 0 ∧ c_string a = some (r.name.data.map Char.toNat)) ∧
    ((ws_format.map fun r => r.name.length).foldl max 0 = 21) ∧
    ((pywws_format.map fun r => r.name.length).foldl max 0 = 12) ∧
    ((wug_format.map fun r => r.name.length).foldl max 0 = 12) ∧
    ((pws_format.map fun r => r.name.length).foldl max 0 = 12) := by
  have hws : ∀ r ∈ ws_format, fits_with_nul WS_NAME_SIZE r.name = true := by decide
  have hpy : ∀ r ∈ pywws_format, fits_with_nul WS_NAME_SIZE r.name = true := by decide
  have hwug : ∀ r ∈ wug_format, fits_with_nul UPLOAD_NAME_SIZE r.name = true := by decide
  have hpws : ∀ r ∈ pws_format, fits_with_nul UPLOAD_NAME_SIZE r.name = true := by decide
  refine ⟨rfl, rfl, ?_, ?_, ?_, ?_, by decide, by decide, by decide, by decide⟩
  · intro r hr
    obtain ⟨h1, h2⟩ := char_array_of_fits _ _ (hws r hr)
    exact ⟨by unfold WS_NAME_SIZE at h1; omega, h2⟩
  · intro r hr
    obtain ⟨h1, h2⟩ := char_array_of_fits _ _ (hpy r hr)
    exact ⟨by unfold WS_NAME_SIZE at h1; omega, h2⟩
  · intro r hr
    obtain ⟨h1, h2⟩ := char_array_of_fits _ _ (hwug r hr)
    exact ⟨by unfold UPLOAD_NAME_SIZE at h1; omega, h2⟩
  · intro r hr
    obtain ⟨h1, h2⟩ := char_array_of_fits _ _ (hpws r hr)
    exact ⟨by unfold UPLOAD_NAME_SIZE at h1; omega, h2⟩

end Fowsr
